import Mathlib

/-!
Verification development for the guideline-update generation pipeline of
src/main.py.  Text is modelled as a list of characters; the Python string
operations used by the program (substring containment, str.split, str.strip,
and the concrete regular-expression scans of the extractors) are embedded as
executable functions.  The external research capability is modelled as an
oracle handing back one response per call; the JSON-file cache is modelled as
an association list keyed by the same key strings the program builds.
-/

namespace Guidelines

abbrev Text := List Char

/-- Python `pat in s` (substring containment). -/
def occursIn (pat : Text) : Text → Bool
  | [] => pat.isPrefixOf []
  | c :: rest => pat.isPrefixOf (c :: rest) || occursIn pat rest

/-- First occurrence of the separator: returns the part strictly before it and
the part strictly after it (Python `s.split(sep)` elements 0 and the rest). -/
def splitFirst (sep : Text) : Text → Option (Text × Text)
  | [] => none
  | c :: rest =>
    if sep.isPrefixOf (c :: rest) then some ([], (c :: rest).drop sep.length)
    else (splitFirst sep rest).map (fun p => (c :: p.1, p.2))

/-- Python `s.split(sep)[0]`. -/
def pySplitHead (sep s : Text) : Text :=
  match splitFirst sep s with
  | none => s
  | some p => p.1

/-- Python `s.split(sep)[1]` (only used by the source under an `in` guard, so
the unreachable no-occurrence case returns the empty text). -/
def pySplitIdx1 (sep s : Text) : Text :=
  match splitFirst sep s with
  | none => []
  | some p =>
    match splitFirst sep p.2 with
    | none => p.2
    | some q => q.1

/-- Fuelled worker for the full Python `s.split(sep)`; the fuel `s.length` is
always sufficient because every split consumes at least one character of a
non-empty separator. -/
def pySplitFuel (sep : Text) : Nat → Text → List Text
  | 0, s => [s]
  | fuel + 1, s =>
    match splitFirst sep s with
    | none => [s]
    | some p => p.1 :: pySplitFuel sep fuel p.2

/-- Python `s.split(sep)` for a non-empty separator. -/
def pySplit (sep s : Text) : List Text := pySplitFuel sep s.length s

/-- The characters Python `str.strip()` removes. -/
def isPySpace (c : Char) : Bool :=
  c == ' ' || c == '\t' || c == '\n' || c == '\r' || c == '\x0b' || c == '\x0c'

/-- Python `s.strip()`. -/
def stripL (s : Text) : Text :=
  ((s.dropWhile isPySpace).reverse.dropWhile isPySpace).reverse

/-- Fuelled scan for `re.findall(r'\*\*([^*]+)\*\*', s)`: at a `**`, the
greedy run of non-star characters must be non-empty and be followed by `**`;
otherwise the scan advances one position, exactly as the regex engine does. -/
def findBoldFuel : Nat → Text → List Text
  | 0, _ => []
  | fuel + 1, s =>
    match s with
    | '*' :: '*' :: rest =>
      let run := rest.takeWhile (fun c => c != '*')
      let rest' := rest.drop run.length
      match rest' with
      | '*' :: '*' :: tail =>
        if !run.isEmpty then run :: findBoldFuel fuel tail
        else findBoldFuel fuel ('*' :: rest)
      | _ => findBoldFuel fuel ('*' :: rest)
    | _ :: rest => findBoldFuel fuel rest
    | [] => []

/-- The bold-span extractor `re.findall(r'\*\*([^*]+)\*\*', s)`. -/
def findBold (s : Text) : List Text := findBoldFuel s.length s

def h3head : Text := "### ".data

/-- Fuelled scan for `re.findall(r'### ([^\n]+)', s)`. -/
def findAll3HFuel : Nat → Text → List Text
  | 0, _ => []
  | fuel + 1, s =>
    match s with
    | [] => []
    | c :: rest =>
      if h3head.isPrefixOf (c :: rest) then
        let after := (c :: rest).drop 4
        let cap := after.takeWhile (fun x => x != '\n')
        if !cap.isEmpty then cap :: findAll3HFuel fuel (after.drop cap.length)
        else findAll3HFuel fuel rest
      else findAll3HFuel fuel rest

/-- The heading extractor `re.findall(r'### ([^\n]+)', s)`. -/
def findAll3H (s : Text) : List Text := findAll3HFuel s.length s

def trailingNewlineCount (w : Text) : Nat :=
  (w.reverse.takeWhile (fun c => c == '\n')).length

/-- Fuelled scan for `re.findall(r'### (\d+\.\s+[^\n]+)', s)` (used for the
adaptation sub-headings of the table of contents).  When the maximal
whitespace run after the dot reaches the end of the text, the regex engine
backtracks `\s+` so that the final `[^\n]+` can still match; that succeeds
exactly when the run minus its trailing newlines still has length two. -/
def findNumHeadsFuel : Nat → Text → List Text
  | 0, _ => []
  | fuel + 1, s =>
    match s with
    | [] => []
    | c :: rest =>
      if h3head.isPrefixOf (c :: rest) then
        let after := (c :: rest).drop 4
        let ds := after.takeWhile Char.isDigit
        match after.drop ds.length with
        | '.' :: t2 =>
          let w := t2.takeWhile isPySpace
          let t3 := t2.drop w.length
          if ds.isEmpty || w.isEmpty then findNumHeadsFuel fuel rest
          else
            match t3 with
            | [] =>
              let t := trailingNewlineCount w
              if 2 ≤ w.length - t then
                (ds ++ ('.' :: w.take (w.length - t)))
                  :: findNumHeadsFuel fuel (w.drop (w.length - t))
              else findNumHeadsFuel fuel rest
            | _ =>
              let cap2 := t3.takeWhile (fun x => x != '\n')
              (ds ++ ('.' :: (w ++ cap2)))
                :: findNumHeadsFuel fuel (t3.drop cap2.length)
        | _ => findNumHeadsFuel fuel rest
      else findNumHeadsFuel fuel rest

/-- The numbered third-level heading scan `re.findall(r'### (\d+\.\s+[^\n]+)', s)`. -/
def findNumHeads (s : Text) : List Text := findNumHeadsFuel s.length s

/-- Fuelled scan for `re.findall(r'\|.*\|.*\|', s)`: from a `|`, the two
greedy dot-stars make the match run to the last `|` of the current line,
provided at least two further `|` occur on it. -/
def findTableRowsFuel : Nat → Text → List Text
  | 0, _ => []
  | fuel + 1, s =>
    match s with
    | [] => []
    | '|' :: rest =>
      let seg := rest.takeWhile (fun c => c != '\n')
      if 2 ≤ seg.count '|' then
        let k := (seg.reverse.takeWhile (fun c => c != '|')).length
        ('|' :: seg.take (seg.length - k))
          :: findTableRowsFuel fuel (rest.drop (seg.length - k))
      else findTableRowsFuel fuel rest
    | _ :: rest => findTableRowsFuel fuel rest

/-- The table-row scan `re.findall(r'\|.*\|.*\|', s)`. -/
def findTableRows (s : Text) : List Text := findTableRowsFuel s.length s

/-- Python `re.match(r'^\d+\.\s+', l)` (applied to stripped lines). -/
def matchesNumDot (l : Text) : Bool :=
  let ds := l.takeWhile Char.isDigit
  match l.drop ds.length with
  | '.' :: t2 => !ds.isEmpty && !(t2.takeWhile isPySpace).isEmpty
  | _ => false

/-- Python `re.match(r'^\d+\.\s+.+', l)` (applied to stripped lines, which
never end in whitespace, so the greedy scan needs no backtracking). -/
def matchesNumDotContent (l : Text) : Bool :=
  let ds := l.takeWhile Char.isDigit
  match l.drop ds.length with
  | '.' :: t2 =>
    let w := t2.takeWhile isPySpace
    !ds.isEmpty && !w.isEmpty && !(t2.drop w.length).isEmpty
  | _ => false

/-- Python `re.match(r'^\[\d+\]\s+.+', l)` (applied to stripped lines). -/
def matchesBrackContent (l : Text) : Bool :=
  match l with
  | '[' :: t0 =>
    let ds := t0.takeWhile Char.isDigit
    match t0.drop ds.length with
    | ']' :: t2 =>
      let w := t2.takeWhile isPySpace
      !ds.isEmpty && !w.isEmpty && !(t2.drop w.length).isEmpty
    | _ => false
  | _ => false

def h2ref : Text := "## References".data
def h3ref : Text := "### References".data
def nlT : Text := "\n".data
def nl2T : Text := "\n\n".data
def gapAreaLit : Text := "Gap Area".data
def boldLit : Text := "**".data
def refWord : Text := "References".data
def recNumLit : Text := "1. **\"".data
def updRecLit : Text := "Updated Recommendation".data
def gradeLit : Text := "Grade".data
def h3marker : Text := "###".data
def dotT : Text := ".".data

def gapFallback : List Text :=
  ["Implementation Strategies".data, "Special Populations".data, "New Technologies".data]

/-- Keep non-blank lines not seen before, in first-occurrence order
(the body of `combine_references`). -/
def dedupNonblankLines : List Text → List Text → List Text
  | [], _ => []
  | l :: ls, seen =>
    if stripL l ≠ [] ∧ l ∉ seen then l :: dedupNonblankLines ls (l :: seen)
    else dedupNonblankLines ls seen

/-- Keep entries not seen before, in first-occurrence order
(the dedup loop of `extract_numbered_references`). -/
def dedupKeepFirst : List Text → List Text → List Text
  | [], _ => []
  | r :: rs, seen =>
    if r ∉ seen then r :: dedupKeepFirst rs (r :: seen)
    else dedupKeepFirst rs seen

/-- src/main.py `extract_gap_areas`. -/
def extract_gap_areas (gap_analysis : Text) : List Text :=
  let ms := findBold gap_analysis
  let gap_areas :=
    if !ms.isEmpty then
      ms.filter (fun m => decide (5 < m.length) && !occursIn gapAreaLit m)
    else []
  let gap_areas := if gap_areas.length < 2 then gapFallback else gap_areas
  gap_areas.take 5

/-- src/main.py `extract_references_from_content`. -/
def extract_references_from_content (content : Text) : Text :=
  if content = [] then []
  else if occursIn h2ref content then pySplitIdx1 h2ref content
  else if occursIn h3ref content then pySplitIdx1 h3ref content
  else []

/-- src/main.py `remove_references_section`. -/
def remove_references_section (content : Text) : Text :=
  if content = [] then []
  else if occursIn h2ref content then pySplitHead h2ref content
  else if occursIn h3ref content then pySplitHead h3ref content
  else content

/-- src/main.py `combine_references`. -/
def combine_references (reference_lists : List Text) : Text :=
  let combined := List.intercalate nl2T (reference_lists.filter (fun r => !r.isEmpty))
  if !combined.isEmpty then
    List.intercalate nlT (dedupNonblankLines (pySplit nlT combined) [])
  else []

/-- Line filter of the first loop of `extract_numbered_references`. -/
def refLineHit (line : Text) : Bool :=
  matchesNumDotContent (stripL line) || matchesBrackContent (stripL line)

/-- src/main.py `extract_numbered_references`. -/
def extract_numbered_references (content : Text) : Text :=
  let lines := pySplit nlT content
  let refs1 := (lines.filter (fun line =>
      refLineHit line && !(recNumLit.isPrefixOf (stripL line)) && !occursIn boldLit line)).map stripL
  let refs2 :=
    if occursIn refWord content then
      ((pySplit refWord content).drop 1).flatMap (fun sec =>
        ((pySplit nlT sec).filter refLineHit).map stripL)
    else []
  List.intercalate nlT (dedupKeepFirst (refs1 ++ refs2) [])

def keyRecsHeader : Text := "Key recommendations from the guidelines:\n\n".data
def guidelinesForLit : Text := "Guidelines for ".data
def medicalTopicLit : Text := "the medical topic".data

/-- src/main.py `extract_recommendations`. -/
def extract_recommendations (sections_content : Text) : Text :=
  let table_rows := findTableRows sections_content
  let recs0 := (table_rows.filter (fun row =>
      !(occursIn updRecLit row || occursIn gradeLit row) && occursIn boldLit row)).map stripL
  let recs :=
    if recs0.isEmpty then
      ((pySplit nlT sections_content).filter (fun line => matchesNumDot (stripL line))).map stripL
    else recs0
  let recs := if 10 < recs.length then recs.take 10 else recs
  if !recs.isEmpty then keyRecsHeader ++ List.intercalate nlT recs
  else
    guidelinesForLit ++
      (if occursIn h3marker sections_content then stripL (pySplitHead h3marker sections_content)
       else medicalTopicLit)

def wordChar (c : Char) : Bool := c.isAlphanum || c == '_'

def pubLit : Text := "Original Publication: ".data
def byLit : Text := " by ".data

/-- Tail matcher for `re.search(r'Original Publication: (\w+ \d{4}) by ([^|]+)', s)`
after the literal has matched: a maximal word run, a space, exactly four
digits, the literal " by ", then a non-empty run of non-bar characters. -/
def tryPubTail (t : Text) : Option (Text × Text) :=
  let w := t.takeWhile wordChar
  match t.drop w.length with
  | ' ' :: t2 =>
    let d := t2.take 4
    if w.isEmpty || d.length < 4 || !d.all Char.isDigit then none
    else if byLit.isPrefixOf (t2.drop 4) then
      let t3 := (t2.drop 4).drop byLit.length
      let cap2 := t3.takeWhile (fun c => c != '|')
      if cap2.isEmpty then none else some (w ++ (' ' :: d), cap2)
    else none
  | _ => none

/-- Fuelled scan for the publication-date search of `extract_key_points`. -/
def searchPubDateFuel : Nat → Text → Option (Text × Text)
  | 0, _ => none
  | fuel + 1, s =>
    match s with
    | [] => none
    | c :: rest =>
      if pubLit.isPrefixOf (c :: rest) then
        match tryPubTail ((c :: rest).drop pubLit.length) with
        | some g => some g
        | none => searchPubDateFuel fuel rest
      else searchPubDateFuel fuel rest

def searchPubDate (s : Text) : Option (Text × Text) := searchPubDateFuel s.length s

def natText (n : Nat) : Text := (Nat.repr n).data

def keyPointsHeader : Text := "Key points from previous sections:\n".data
def pubBulletA : Text := "- Original guidelines published ".data
def pubBulletB : Text := " by ".data
def secBullet : Text := "- Updated sections include: ".data
def keyChangesBullet : Text := "- Key changes include: ".data
def approxBulletA : Text := "- Approximately ".data
def approxBulletB : Text := " significant changes have been made across all sections\n".data
def commaSep : Text := ", ".data

/-- src/main.py `extract_key_points`. -/
def extract_key_points (metadata_result sections_summary : Text) : Text :=
  let kp := keyPointsHeader
  let kp :=
    match searchPubDate metadata_result with
    | some g => kp ++ pubBulletA ++ g.1 ++ pubBulletB ++ stripL g.2 ++ nlT
    | none => kp
  let secs := findAll3H sections_summary
  let kp := if !secs.isEmpty then kp ++ secBullet ++ List.intercalate commaSep secs ++ nlT else kp
  let bold := findBold sections_summary
  if !bold.isEmpty && decide (bold.length ≤ 10) then
    kp ++ keyChangesBullet ++ List.intercalate commaSep (bold.take 5) ++ nlT
  else if !bold.isEmpty then
    kp ++ approxBulletA ++ natText bold.length ++ approxBulletB
  else kp

/-- Anchor derivation of the table of contents: lowercase, space to hyphen,
drop parentheses. -/
def anchorOf (s : Text) : Text :=
  ((s.map Char.toLower).map (fun c => if c == ' ' then '-' else c)).filter
    (fun c => !(c == '(' || c == ')'))

def tocHeader : Text := "## Table of Contents\n\n".data
def tocComparisonLine : Text :=
  "1. [Side-by-Side Comparison of Recommendations](#side-by-side-comparison-of-recommendations)\n".data
def tocSubA : Text := "   - [".data
def tocSubB : Text := "](#".data
def tocSubC : Text := ")\n".data
def tocNumB : Text := ". [".data

def tocSubLine (name : Text) : Text :=
  tocSubA ++ name ++ tocSubB ++ anchorOf name ++ tocSubC

def tocNumLine (n : Nat) (label anchor : Text) : Text :=
  natText n ++ tocNumB ++ label ++ tocSubB ++ anchor ++ tocSubC

def tocAdaptSubLine (sub : Text) : Text :=
  let clean := match splitFirst dotT sub with
    | some p => stripL p.2
    | none => []
  tocSubA ++ clean ++ tocSubB ++ anchorOf clean ++ tocSubC

def newRecsTocLabel : Text := "New Recommendations".data
def newRecsTocAnchor : Text := "new-recommendations".data
def conclTocLabel : Text := "Conclusion and Implementation".data
def conclTocAnchor : Text := "conclusion-and-implementation".data
def adaptTocLabel : Text := "Setting-Specific Adaptations".data
def adaptTocAnchor : Text := "setting-specific-adaptations".data
def refsTocLabel : Text := "References".data
def refsTocAnchor : Text := "references".data

/-- src/main.py `create_table_of_contents_with_adaptations`. -/
def create_table_of_contents_with_adaptations
    (sections_content new_recommendations conclusion context_adaptations : Text) : Text :=
  let toc := tocHeader ++ tocComparisonLine
    ++ ((findAll3H sections_content).map tocSubLine).flatten
  let p1 :=
    if new_recommendations ≠ [] then
      (toc ++ tocNumLine 2 newRecsTocLabel newRecsTocAnchor
          ++ ((findAll3H new_recommendations).map tocSubLine).flatten, 3)
    else (toc, 2)
  let p2 :=
    if conclusion ≠ [] then
      (p1.1 ++ tocNumLine p1.2 conclTocLabel conclTocAnchor
          ++ ((findAll3H conclusion).map tocSubLine).flatten, p1.2 + 1)
    else p1
  let p3 :=
    if context_adaptations ≠ [] then
      (p2.1 ++ tocNumLine p2.2 adaptTocLabel adaptTocAnchor
          ++ ((findNumHeads context_adaptations).map tocAdaptSubLine).flatten, p2.2 + 1)
    else p2
  p3.1 ++ tocNumLine p3.2 refsTocLabel refsTocAnchor

def placeholderRefs : Text := "[References will be added here]".data

/-- Title part of the metadata, in the shape the assembler computes it
(src/main.py line 1183). -/
def assembleTitle (metadata : Text) : Text :=
  if occursIn h2ref metadata then pySplitHead h2ref metadata else metadata

/-- Reference recovery chain of the assembler (src/main.py lines 1186-1210):
metadata references, else combined per-stage reference blocks, else numbered
reference lines, else the literal placeholder. -/
def referencesSection
    (metadata sections_content new_recommendations conclusion context_adaptations : Text) : Text :=
  let refs0 := if occursIn h2ref metadata then pySplitIdx1 h2ref metadata else []
  let refs1 :=
    if refs0 = [] ∨ stripL refs0 = [] then
      let refs_from_sections := extract_references_from_content sections_content
      let refs_from_new_recs :=
        if new_recommendations ≠ [] then extract_references_from_content new_recommendations else []
      let refs_from_conclusion :=
        if conclusion ≠ [] then extract_references_from_content conclusion else []
      let refs_from_context :=
        if context_adaptations ≠ [] then extract_references_from_content context_adaptations else []
      let all_refs := combine_references
        [refs_from_sections, refs_from_new_recs, refs_from_conclusion, refs_from_context]
      if all_refs ≠ [] then all_refs else refs0
    else refs0
  if refs1 = [] ∨ stripL refs1 = [] then
    let numbered := extract_numbered_references (assembleTitle metadata ++ nlT ++ sections_content)
    if numbered ≠ [] then numbered else placeholderRefs
  else refs1

def sepT : Text := "---\n\n".data
def comparisonLabel : Text := "## 📋 Side-by-Side Comparison of Recommendations\n\n".data
def newRecsLabel : Text := "## 🆕 New Recommendations\n\n".data
def conclusionLabel : Text := "## 📝 Conclusion and Implementation\n\n".data
def adaptationsLabel : Text := "## 🏥 Setting-Specific Adaptations\n\n".data
def referencesLabel : Text := "## 📚 References\n\n".data

/-- src/main.py `assemble_complete_guidelines_with_adaptations`. -/
def assemble_complete_guidelines_with_adaptations
    (metadata sections_content new_recommendations conclusion context_adaptations : Text) : Text :=
  let title_section := assembleTitle metadata
  let references_section :=
    referencesSection metadata sections_content new_recommendations conclusion context_adaptations
  let clean_sections_content := stripL (remove_references_section sections_content)
  let clean_new_recommendations :=
    if new_recommendations ≠ [] then stripL (remove_references_section new_recommendations) else []
  let clean_conclusion :=
    if conclusion ≠ [] then stripL (remove_references_section conclusion) else []
  let clean_context_adaptations :=
    if context_adaptations ≠ [] then stripL (remove_references_section context_adaptations) else []
  let toc := create_table_of_contents_with_adaptations
    clean_sections_content clean_new_recommendations clean_conclusion clean_context_adaptations
  stripL title_section ++ nl2T ++ sepT
    ++ toc ++ nl2T ++ sepT
    ++ comparisonLabel ++ clean_sections_content ++ nl2T ++ sepT
    ++ (if clean_new_recommendations ≠ [] then
          newRecsLabel ++ clean_new_recommendations ++ nl2T ++ sepT else [])
    ++ (if clean_conclusion ≠ [] then
          conclusionLabel ++ clean_conclusion ++ nl2T ++ sepT else [])
    ++ (if clean_context_adaptations ≠ [] then
          adaptationsLabel ++ clean_context_adaptations ++ nl2T ++ sepT else [])
    ++ referencesLabel ++ stripL references_section

/-- The persisted cache (tmp/guidelines_cache.json), modelled as a reliable
key-value store with Python-dict insert-or-overwrite semantics. -/
abbrev Cache := List (Text × Text)

def cacheGet : Cache → Text → Option Text
  | [], _ => none
  | (k', v) :: rest, k => if k' = k then some v else cacheGet rest k

def cachePut : Cache → Text → Text → Cache
  | [], k, v => [(k, v)]
  | (k', v') :: rest, k, v =>
    if k' = k then (k, v) :: rest else (k', v') :: cachePut rest k v

/-- Outcome of one call of the external research capability: `content` is a
returned response (possibly empty), `err` is a raised exception carrying its
message. -/
inductive CallResult where
  | content (s : Text)
  | err (msg : Text)
deriving DecidableEq

/-- A request to the external capability, abstracted to its template plus the
data interpolated into it; the fixed instruction boilerplate of each prompt
string in the source is constant per template. -/
inductive Prompt where
  | metadataPrompt (topic : Text)
  | sectionPrompt (topic sect : Text)
  | newRecsPrompt (topic : Text)
  | originalRecsPrompt (topic sect : Text)
  | evidencePrompt (topic sect original_recommendations : Text)
  | updatedRecsPrompt (topic sect original_recommendations evidence_analysis : Text)
  | gapsPrompt (topic : Text)
  | singleGapPrompt (topic gap_area : Text)
  | conclusionPrompt (topic key_points : Text)
  | contextPrompt (topic recommendations : Text)
deriving DecidableEq

instance exceptDecEq {ε α : Type} [DecidableEq ε] [DecidableEq α] :
    DecidableEq (Except ε α) := fun a b =>
  match a, b with
  | .ok x, .ok y =>
    if h : x = y then isTrue (congrArg Except.ok h)
    else isFalse (fun hc => h (Except.ok.inj hc))
  | .error x, .error y =>
    if h : x = y then isTrue (congrArg Except.error h)
    else isFalse (fun hc => h (Except.error.inj hc))
  | .ok _, .error _ => isFalse (fun hc => Except.noConfusion hc)
  | .error _, .ok _ => isFalse (fun hc => Except.noConfusion hc)

/-- The external world: the response to the n-th call of the run. -/
abbrev Oracle := Nat → Prompt → CallResult

/-- Mutable state threaded through a run: the cache plus the log of external
calls made so far (its length is the call count). -/
structure PState where
  cache : Cache
  log : List Prompt
deriving DecidableEq

def callAgent (o : Oracle) (p : Prompt) (st : PState) : CallResult × PState :=
  (o st.log.length p, ⟨st.cache, st.log ++ [p]⟩)

def modeText (use_fast_research : Bool) : Text :=
  if use_fast_research then "fast".data else "deep".data

def usT : Text := "_".data
def metadataKeyMid : Text := "_metadata_".data
def chunkedKeyMid : Text := "_chunked_".data
def newRecsKeyMid : Text := "_new_recommendations_".data
def newRecsChunkedKeyMid : Text := "_new_recs_chunked_".data
def conclusionKeyMid : Text := "_conclusion_".data
def contextKeyMid : Text := "_context_adaptations_".data

def metadataKey (topic today : Text) (fast : Bool) : Text :=
  topic ++ metadataKeyMid ++ today ++ usT ++ modeText fast
def sectionKey (topic sect today : Text) (fast : Bool) : Text :=
  topic ++ usT ++ sect ++ usT ++ today ++ usT ++ modeText fast
def chunkedSectionKey (topic sect today : Text) (fast : Bool) : Text :=
  topic ++ usT ++ sect ++ chunkedKeyMid ++ today ++ usT ++ modeText fast
def newRecsKey (topic today : Text) (fast : Bool) : Text :=
  topic ++ newRecsKeyMid ++ today ++ usT ++ modeText fast
def newRecsChunkedKey (topic today : Text) (fast : Bool) : Text :=
  topic ++ newRecsChunkedKeyMid ++ today ++ usT ++ modeText fast
def conclusionKey (topic today : Text) (fast : Bool) : Text :=
  topic ++ conclusionKeyMid ++ today ++ usT ++ modeText fast
def contextKey (topic today : Text) (fast : Bool) : Text :=
  topic ++ contextKeyMid ++ today ++ usT ++ modeText fast

def metadataFail : Text :=
  "# Guidelines Update\n\n## Failed to generate metadata.\n\nPlease check the logs for details.".data
def metadataErr (e : Text) : Text :=
  "# Guidelines Update\n\n## Error\n\nAn error occurred while researching metadata: ".data ++ e
def sectionFail (sect : Text) : Text :=
  h3head ++ sect ++ "\n\nFailed to generate content for this section. Please check the logs for details.".data
def sectionErr (sect e : Text) : Text :=
  h3head ++ sect ++ "\n\nAn error occurred while researching this section: ".data ++ e
def newRecsFail : Text :=
  "## New Recommendations\n\nFailed to generate new recommendations. Please check the logs for details.".data
def newRecsErr (e : Text) : Text :=
  "## New Recommendations\n\nAn error occurred while researching new recommendations: ".data ++ e
def origRecsFallback (sect : Text) : Text :=
  "1. \"No specific recommendations found for ".data ++ sect
    ++ "\" [Grade Unknown, Unknown date]".data
def evidenceFallback : Text :=
  "### Evidence Analysis\nNo substantial new evidence was found that would change the original recommendations.".data
def updatedFallback (sect : Text) : Text :=
  "No updates to ".data ++ sect ++ " recommendations could be generated based on current evidence.".data
def gapsFallback : Text :=
  "### Gap Areas in Current Guidelines\n\n1. **Implementation Guidance**\n   - Why this is a gap: Current guidelines lack specific implementation strategies\n   - Clinical importance: Clinicians need practical guidance for real-world application".data
def singleGapFallback (gap_area : Text) : Text :=
  h3head ++ gap_area
    ++ "\n\nInsufficient evidence is currently available to make formal recommendations in this area.".data
def conclusionFail : Text :=
  "## Conclusion\n\nThis concludes the updated guidelines. Implementation should be tailored to local contexts and resources.".data
def conclusionErr (e : Text) : Text :=
  "## Conclusion\n\nAn error occurred while researching the conclusion: ".data ++ e
def contextFail : Text :=
  "## Contextual Adaptations\n\nNo setting-specific adaptations could be generated. Please check the logs for details.".data
def contextErr (e : Text) : Text :=
  "## Contextual Adaptations\n\nAn error occurred while generating setting-specific adaptations: ".data ++ e

/-- src/main.py `research_guideline_metadata`.  An `err` response models an
exception from the external call (caught by this function's handler); empty
content yields the failure document; only a successful non-empty response is
written through to the cache. -/
def research_guideline_metadata (topic today : Text) (fast useCache : Bool)
    (o : Oracle) (st : PState) : Text × PState :=
  let key := metadataKey topic today fast
  match (if useCache then cacheGet st.cache key else none) with
  | some v => (v, st)
  | none =>
    let r := callAgent o (.metadataPrompt topic) st
    match r.1 with
    | .content s =>
      if s ≠ [] then
        (s, if useCache then ⟨cachePut r.2.cache key s, r.2.log⟩ else r.2)
      else (metadataFail, r.2)
    | .err e => (metadataErr e, r.2)

/-- src/main.py `research_guideline_section` (the direct, non-chunked
strategy). -/
def research_guideline_section (topic sect today : Text) (fast useCache : Bool)
    (o : Oracle) (st : PState) : Text × PState :=
  let key := sectionKey topic sect today fast
  match (if useCache then cacheGet st.cache key else none) with
  | some v => (v, st)
  | none =>
    let r := callAgent o (.sectionPrompt topic sect) st
    match r.1 with
    | .content s =>
      if s ≠ [] then
        (s, if useCache then ⟨cachePut r.2.cache key s, r.2.log⟩ else r.2)
      else (sectionFail sect, r.2)
    | .err e => (sectionErr sect e, r.2)

/-- src/main.py `research_new_recommendations` (direct strategy). -/
def research_new_recommendations (topic today : Text) (fast useCache : Bool)
    (o : Oracle) (st : PState) : Text × PState :=
  let key := newRecsKey topic today fast
  match (if useCache then cacheGet st.cache key else none) with
  | some v => (v, st)
  | none =>
    let r := callAgent o (.newRecsPrompt topic) st
    match r.1 with
    | .content s =>
      if s ≠ [] then
        (s, if useCache then ⟨cachePut r.2.cache key s, r.2.log⟩ else r.2)
      else (newRecsFail, r.2)
    | .err e => (newRecsErr e, r.2)

/-- src/main.py `research_original_recommendations`.  This function has no
exception handler, so a raised error propagates as `.error`. -/
def research_original_recommendations (topic sect : Text) (o : Oracle) (st : PState) :
    Except (Text × PState) (Text × PState) :=
  let r := callAgent o (.originalRecsPrompt topic sect) st
  match r.1 with
  | .content s => .ok (if s ≠ [] then s else origRecsFallback sect, r.2)
  | .err e => .error (e, r.2)

/-- src/main.py `research_section_evidence` (no exception handler). -/
def research_section_evidence (topic sect original_recommendations : Text)
    (o : Oracle) (st : PState) : Except (Text × PState) (Text × PState) :=
  let r := callAgent o (.evidencePrompt topic sect original_recommendations) st
  match r.1 with
  | .content s => .ok (if s ≠ [] then s else evidenceFallback, r.2)
  | .err e => .error (e, r.2)

/-- src/main.py `generate_updated_recommendations` (no exception handler). -/
def generate_updated_recommendations (topic sect original_recommendations evidence_analysis : Text)
    (o : Oracle) (st : PState) : Except (Text × PState) (Text × PState) :=
  let r := callAgent o (.updatedRecsPrompt topic sect original_recommendations evidence_analysis) st
  match r.1 with
  | .content s => .ok (if s ≠ [] then s else updatedFallback sect, r.2)
  | .err e => .error (e, r.2)

def chunkHeadT : Text := "\n### ".data
def chunkTailT : Text := "\n    ".data

/-- src/main.py `research_section_chunked`: cache check, then the three
dependent sub-calls run strictly in sequence, each receiving the previous
output; the combined section is cached unconditionally at the end. -/
def research_section_chunked (topic sect today : Text) (fast useCache : Bool)
    (o : Oracle) (st : PState) : Except (Text × PState) (Text × PState) :=
  let key := chunkedSectionKey topic sect today fast
  match (if useCache then cacheGet st.cache key else none) with
  | some v => .ok (v, st)
  | none =>
    match research_original_recommendations topic sect o st with
    | .error e => .error e
    | .ok (original_recommendations, st1) =>
      match research_section_evidence topic sect original_recommendations o st1 with
      | .error e => .error e
      | .ok (evidence_analysis, st2) =>
        match generate_updated_recommendations topic sect
            original_recommendations evidence_analysis o st2 with
        | .error e => .error e
        | .ok (updated_recommendations, st3) =>
          let full_section := chunkHeadT ++ sect ++ nl2T ++ updated_recommendations ++ chunkTailT
          .ok (full_section,
               if useCache then ⟨cachePut st3.cache key full_section, st3.log⟩ else st3)

/-- src/main.py `identify_guideline_gaps` (no exception handler). -/
def identify_guideline_gaps (topic : Text) (o : Oracle) (st : PState) :
    Except (Text × PState) (Text × PState) :=
  let r := callAgent o (.gapsPrompt topic) st
  match r.1 with
  | .content s => .ok (if s ≠ [] then s else gapsFallback, r.2)
  | .err e => .error (e, r.2)

/-- src/main.py `research_single_gap` (no exception handler). -/
def research_single_gap (topic gap_area : Text) (o : Oracle) (st : PState) :
    Except (Text × PState) (Text × PState) :=
  let r := callAgent o (.singleGapPrompt topic gap_area) st
  match r.1 with
  | .content s => .ok (if s ≠ [] then s else singleGapFallback gap_area, r.2)
  | .err e => .error (e, r.2)

/-- The per-gap research loop of `research_new_recommendations_chunked`. -/
def runGapLoop (topic : Text) (o : Oracle) :
    List Text → PState → Except (Text × PState) (List Text × PState)
  | [], st => .ok ([], st)
  | gap_area :: gaps, st =>
    match research_single_gap topic gap_area o st with
    | .error e => .error e
    | .ok (r, st1) =>
      match runGapLoop topic o gaps st1 with
      | .error e => .error e
      | .ok (rs, st2) => .ok (r :: rs, st2)

def newRecsHeadT : Text := "\n## New Recommendations\n\n".data

/-- src/main.py `research_new_recommendations_chunked`: cache check, the gap
identification call, gap-topic extraction, one call per gap topic, then the
concatenated result is cached unconditionally. -/
def research_new_recommendations_chunked (topic today : Text) (fast useCache : Bool)
    (o : Oracle) (st : PState) : Except (Text × PState) (Text × PState) :=
  let key := newRecsChunkedKey topic today fast
  match (if useCache then cacheGet st.cache key else none) with
  | some v => .ok (v, st)
  | none =>
    match identify_guideline_gaps topic o st with
    | .error e => .error e
    | .ok (guideline_gaps, st1) =>
      let gap_areas := extract_gap_areas guideline_gaps
      match runGapLoop topic o gap_areas st1 with
      | .error e => .error e
      | .ok (gap_analyses, st2) =>
        let new_recommendations := newRecsHeadT ++ List.intercalate nl2T gap_analyses ++ chunkTailT
        .ok (new_recommendations,
             if useCache then ⟨cachePut st2.cache key new_recommendations, st2.log⟩ else st2)

/-- src/main.py `research_comprehensive_conclusion`. -/
def research_comprehensive_conclusion (topic metadata_result sections_summary today : Text)
    (fast useCache : Bool) (o : Oracle) (st : PState) : Text × PState :=
  let key := conclusionKey topic today fast
  match (if useCache then cacheGet st.cache key else none) with
  | some v => (v, st)
  | none =>
    let key_points := extract_key_points metadata_result sections_summary
    let r := callAgent o (.conclusionPrompt topic key_points) st
    match r.1 with
    | .content s =>
      if s ≠ [] then
        (s, if useCache then ⟨cachePut r.2.cache key s, r.2.log⟩ else r.2)
      else (conclusionFail, r.2)
    | .err e => (conclusionErr e, r.2)

/-- src/main.py `generate_context_adaptations`. -/
def generate_context_adaptations (topic sections_content today : Text)
    (fast useCache : Bool) (o : Oracle) (st : PState) : Text × PState :=
  let key := contextKey topic today fast
  match (if useCache then cacheGet st.cache key else none) with
  | some v => (v, st)
  | none =>
    let recommendations := extract_recommendations sections_content
    let r := callAgent o (.contextPrompt topic recommendations) st
    match r.1 with
    | .content s =>
      if s ≠ [] then
        (s, if useCache then ⟨cachePut r.2.cache key s, r.2.log⟩ else r.2)
      else (contextFail, r.2)
    | .err e => (contextErr e, r.2)

/-- Inputs of the orchestrator entry point (sidebar options of `main`). -/
structure Config where
  topic : Text
  sections : List Text
  today : Text
  fast : Bool
  useCache : Bool
  chunked : Bool
  includeNew : Bool
  includeConclusion : Bool
  includeContext : Bool

/-- One iteration of the sections loop of `main`: the strategy switch of
`research_section_with_progress`. -/
def sectionStep (cfg : Config) (sect : Text) (o : Oracle) (st : PState) :
    Except (Text × PState) (Text × PState) :=
  if cfg.chunked then
    research_section_chunked cfg.topic sect cfg.today cfg.fast cfg.useCache o st
  else
    .ok (research_guideline_section cfg.topic sect cfg.today cfg.fast cfg.useCache o st)

/-- The sections loop of `main` (STEP 2). -/
def runSections (cfg : Config) (o : Oracle) :
    List Text → PState → Except (Text × PState) (List Text × PState)
  | [], st => .ok ([], st)
  | sect :: rest, st =>
    match sectionStep cfg sect o st with
    | .error e => .error e
    | .ok (r, st1) =>
      match runSections cfg o rest st1 with
      | .error e => .error e
      | .ok (rs, st2) => .ok (r :: rs, st2)

/-- STEP 3 of `main`: optional new recommendations with strategy switch. -/
def newRecsStep (cfg : Config) (o : Oracle) (st : PState) :
    Except (Text × PState) (Text × PState) :=
  if cfg.includeNew then
    if cfg.chunked then
      research_new_recommendations_chunked cfg.topic cfg.today cfg.fast cfg.useCache o st
    else
      .ok (research_new_recommendations cfg.topic cfg.today cfg.fast cfg.useCache o st)
  else .ok ([], st)

/-- STEP 4 of `main`: optional conclusion. -/
def conclusionStep (cfg : Config) (metadata_result combined_sections : Text)
    (o : Oracle) (st : PState) : Text × PState :=
  if cfg.includeConclusion then
    research_comprehensive_conclusion cfg.topic metadata_result combined_sections
      cfg.today cfg.fast cfg.useCache o st
  else ([], st)

/-- STEP 5 of `main`: optional context adaptations. -/
def contextStep (cfg : Config) (combined_sections : Text) (o : Oracle) (st : PState) :
    Text × PState :=
  if cfg.includeContext then
    generate_context_adaptations cfg.topic combined_sections cfg.today cfg.fast cfg.useCache o st
  else ([], st)

/-- The generation workflow of `main` (src/main.py lines 1484-1627), stripped
of its UI.  An uncaught exception from a chunked sub-call surfaces as
`.error`, matching the source where only the top-level handler catches it and
the run is abandoned. -/
def runPipeline (cfg : Config) (o : Oracle) (c0 : Cache) :
    Except (Text × PState) (Text × PState) :=
  let st0 : PState := ⟨c0, []⟩
  let m := research_guideline_metadata cfg.topic cfg.today cfg.fast cfg.useCache o st0
  match runSections cfg o cfg.sections m.2 with
  | .error e => .error e
  | .ok (sections_results, st2) =>
    let combined_sections := List.intercalate nl2T sections_results
    match newRecsStep cfg o st2 with
    | .error e => .error e
    | .ok (new_recommendations_result, st3) =>
      let cr := conclusionStep cfg m.1 combined_sections o st3
      let xr := contextStep cfg combined_sections o cr.2
      .ok (assemble_complete_guidelines_with_adaptations m.1 combined_sections
             new_recommendations_result cr.1 xr.1, xr.2)

/-- Progress share allotted to the sections loop (src/main.py line 1457). -/
def sectionProgressTotal (includeContext : Bool) : ℚ := if includeContext then 50 else 60

/-- The two `update_status` percent values of section iterations 0..i-1. -/
def secVals (tT : ℚ) (n : Nat) : Nat → List ℚ
  | 0 => []
  | i + 1 =>
    secVals tT n i
      ++ [20 + (i : ℚ) * tT / (n : ℚ), 20 + ((i : ℚ) + 1) * tT / (n : ℚ)]

/-- The `update_status` percent values of the optional component stages,
mirroring the `progress_allocation` bookkeeping of `main`. -/
def progressComponentVals (cfg : Config) : List ℚ :=
  let tT := sectionProgressTotal cfg.includeContext
  let remaining : ℚ := 100 - (20 + tT)
  let cnt : Nat := (if cfg.includeNew then 1 else 0) + (if cfg.includeConclusion then 1 else 0)
      + (if cfg.includeContext then 1 else 0)
  if cnt = 0 then [] else
    let per := remaining / (cnt : ℚ)
    let c0 : ℚ := 20 + tT
    let q1 := if cfg.includeNew then ([c0, c0 + per], c0 + per) else (([] : List ℚ), c0)
    let q2 := if cfg.includeConclusion then (q1.1 ++ [q1.2, q1.2 + per], q1.2 + per) else q1
    let q3 := if cfg.includeContext then (q2.1 ++ [q2.2, q2.2 + per], q2.2 + per) else q2
    q3.1

/-- The percent values handed to the progress callback over a successful run
of `main`, in order of emission (src/main.py lines 1486-1630). -/
def progressValues (cfg : Config) : List ℚ :=
  [10, 20]
    ++ secVals (sectionProgressTotal cfg.includeContext) cfg.sections.length cfg.sections.length
    ++ progressComponentVals cfg
    ++ [98, 100]

/-- A cache key as the spec describes it: subject topic, stage identifier
with its optional sub-identifier, generation date, quality mode.  Equality is
the derived structural equality. -/
inductive CacheKeyTuple where
  | metadataStage (topic date : Text) (fast : Bool)
  | sectionStage (topic sect date : Text) (fast : Bool)
  | sectionChunkedStage (topic sect date : Text) (fast : Bool)
  | newRecsStage (topic date : Text) (fast : Bool)
  | newRecsChunkedStage (topic date : Text) (fast : Bool)
  | conclusionStage (topic date : Text) (fast : Bool)
  | contextStage (topic date : Text) (fast : Bool)
deriving DecidableEq

/-- The string encoding each call site builds for its cache key. -/
def encodeKey : CacheKeyTuple → Text
  | .metadataStage t d f => metadataKey t d f
  | .sectionStage t s d f => sectionKey t s d f
  | .sectionChunkedStage t s d f => chunkedSectionKey t s d f
  | .newRecsStage t d f => newRecsKey t d f
  | .newRecsChunkedStage t d f => newRecsChunkedKey t d f
  | .conclusionStage t d f => conclusionKey t d f
  | .contextStage t d f => contextKey t d f

def tupleDate : CacheKeyTuple → Text
  | .metadataStage _ d _ => d
  | .sectionStage _ _ d _ => d
  | .sectionChunkedStage _ _ d _ => d
  | .newRecsStage _ d _ => d
  | .newRecsChunkedStage _ d _ => d
  | .conclusionStage _ d _ => d
  | .contextStage _ d _ => d

def tupleFast : CacheKeyTuple → Bool
  | .metadataStage _ _ f => f
  | .sectionStage _ _ _ f => f
  | .sectionChunkedStage _ _ _ f => f
  | .newRecsStage _ _ f => f
  | .newRecsChunkedStage _ _ f => f
  | .conclusionStage _ _ f => f
  | .contextStage _ _ f => f

/-- Everything of the encoded key before the final date and mode fields. -/
def tupleCore : CacheKeyTuple → Text
  | .metadataStage t _ _ => t ++ "_metadata".data
  | .sectionStage t s _ _ => t ++ usT ++ s
  | .sectionChunkedStage t s _ _ => t ++ usT ++ s ++ "_chunked".data
  | .newRecsStage t _ _ => t ++ "_new_recommendations".data
  | .newRecsChunkedStage t _ _ => t ++ "_new_recs_chunked".data
  | .conclusionStage t _ _ => t ++ "_conclusion".data
  | .contextStage t _ _ => t ++ "_context_adaptations".data

/-! Lemmas about the text utilities. -/

/-- Every entry of the first cache is still present, with the same value, in
the second. -/
def cacheLe (c c' : Cache) : Prop :=
  ∀ k v, cacheGet c k = some v → cacheGet c' k = some v

/-- The oracle answers every call with non-empty content (no exception, no
empty response). -/
def OracleOk (o : Oracle) : Prop := ∀ n p, ∃ s, o n p = .content s ∧ s ≠ []

def sectionStepKey (cfg : Config) (sect : Text) : Text :=
  if cfg.chunked then chunkedSectionKey cfg.topic sect cfg.today cfg.fast
  else sectionKey cfg.topic sect cfg.today cfg.fast

/-- Every selected section has its (strategy-dependent) key cached with
exactly the text the sections loop produced for it. -/
def SectionsCached (cfg : Config) (c : Cache) : List Text → List Text → Prop :=
  List.Forall₂ (fun sect r => cacheGet c (sectionStepKey cfg sect) = some r)

def newRecsStepKey (cfg : Config) : Text :=
  if cfg.chunked then newRecsChunkedKey cfg.topic cfg.today cfg.fast
  else newRecsKey cfg.topic cfg.today cfg.fast

/-- The optional new-recommendations result is cached under its key when the
stage is enabled, and is the empty text when it is disabled. -/
def NewCached (cfg : Config) (c : Cache) (r : Text) : Prop :=
  if cfg.includeNew then cacheGet c (newRecsStepKey cfg) = some r else r = []

def ConclCached (cfg : Config) (c : Cache) (r : Text) : Prop :=
  if cfg.includeConclusion then
    cacheGet c (conclusionKey cfg.topic cfg.today cfg.fast) = some r
  else r = []

def ContextCached (cfg : Config) (c : Cache) (r : Text) : Prop :=
  if cfg.includeContext then
    cacheGet c (contextKey cfg.topic cfg.today cfg.fast) = some r
  else r = []

/-- The second run, started from the first run's final cache, is served
entirely from the cache: it makes no external call (its log stays empty),
does not change the cache, and returns the very same document. -/
def SecondRunClean (cfg : Config) (o₂ : Oracle) :
    Except (Text × PState) (Text × PState) → Prop
  | .ok r => runPipeline cfg o₂ r.2.cache = .ok (r.1, ⟨r.2.cache, []⟩)
  | .error _ => False

/-- The cleaned body of an optional stage (empty when the stage did not run). -/
def cleanOpt (x : Text) : Text :=
  if x ≠ [] then stripL (remove_references_section x) else []

/-- A labelled optional segment: present with its fixed label exactly when
its cleaned body is non-empty. -/
def optBlock (label body : Text) : Text :=
  if body ≠ [] then label ++ body ++ nl2T ++ sepT else []

/-- Repeated cache reads, the spec's iterated `get`. -/
def readN (c : Cache) (k : Text) : Nat → List (Option Text)
  | 0 => []
  | nn + 1 => cacheGet c k :: readN c k nn

/-- An oracle that never raises (it may still return empty content). -/
def OracleNoErr (o : Oracle) : Prop := ∀ n p, ∃ s, o n p = .content s

def w4k : Text := "some key".data

def w4v : Text := "some value".data

def w4topic : Text := "sepsis".data

def w4today : Text := "2025-04-01".data

def w4mv : Text := "cached metadata".data

def w4oracle : Oracle := fun _ _ => .err []

def w4st : PState := ⟨[(metadataKey w4topic w4today false, w4mv)], []⟩

def w5four : Text := "**alphaone** x **betatwo** y **gammathree** z **deltafour**".data

def w5none : Text := "**Gap Area 1** and **tiny** only: no qualifying span".data

def c6text : Text := "a\n## References\nb\n## References\nc".data

def c6afterFirst : Text := "\nb\n## References\nc".data

def c6w1 : Text := "body\n## References\n1. A\n2. B".data

def c6w2 : Text := "no reference heading here".data

def c10topic : Text := "copd".data

def c10date : Text := "2025-04-01".data

def c10sect : Text := "metadata".data

def c9topic : Text := "sepsis".data

def c9date : Text := "2025-04-01".data

def c9sect : Text := "Imaging".data

def c9cfg : Config := ⟨c9topic, [c9sect], c9date, false, true, true, true, false, false⟩

def c9wcfg : Config := ⟨c9topic, [c9sect], c9date, false, true, true, false, false, false⟩

def c7m : Text := "title only".data

def c7s : Text := "body\n## References\nRef A\nRef A\nRef B".data

def c7m2 : Text := "plain title".data

def c7s2 : Text := "plain body".data

def c8wtopic : Text := "ards".data

def c8wsect : Text := "Ventilation".data

def c8wdate : Text := "2025-04-01".data

def c8wtext : Text := "Evidence summary.".data

def c8wOracle : Oracle := fun nn _ =>

  if nn = 0 then CallResult.content [] else CallResult.content c8wtext
def c8wst : PState := ⟨[], []⟩

def c8etopic : Text := "ards".data

def c8esect : Text := "Ventilation".data

def c8edate : Text := "2025-04-01".data

def c8emeta : Text := "meta text".data

def c8eboom : Text := "connection reset".data

def c8ecfg : Config := ⟨c8etopic, [c8esect], c8edate, false, true, true, false, false, false⟩

def c8eOracle : Oracle := fun nn _ =>
  if nn = 0 then CallResult.content c8emeta else CallResult.err c8eboom

def c2wtopic : Text := "fever evaluation".data

def c2wsect : Text := "Diagnostic Approach".data

def c2wdate : Text := "2025-04-01".data

def c2wtext : Text := "Generated research text.".data

def c2wcfg : Config := ⟨c2wtopic, [c2wsect], c2wdate, false, true, true, true, true, true⟩

def c2wOracle : Oracle := fun _ _ => CallResult.content c2wtext

def c2etopic : Text := "fever".data

def c2edate : Text := "2025-04-01".data

def c2ecfg : Config := ⟨c2etopic, [], c2edate, false, true, false, false, false, false⟩

def c2eOracle : Oracle := fun _ _ => CallResult.content []

def c3topic : Text := "sepsis management".data

def c3sect : Text := "Diagnostic Approach".data

def c3date : Text := "2025-04-01".data

def c3cfg : Config := ⟨c3topic, [c3sect], c3date, false, true, true, false, false, false⟩

def c3wtext : Text := "guideline content".data

def c3wOracle : Oracle := fun _ _ => .content c3wtext

theorem occursIn_iff {pat s : Text} :
    occursIn pat s = true ↔ ∃ l r, s = l ++ pat ++ r := by
  induction s with
  | nil =>
    simp only [occursIn, List.isPrefixOf_iff_prefix, List.prefix_nil]
    constructor
    · rintro rfl; exact ⟨[], [], rfl⟩
    · rintro ⟨l, r, h⟩
      rcases List.append_eq_nil.mp h.symm with ⟨h1, h2⟩
      rcases List.append_eq_nil.mp h1 with ⟨-, h3⟩
      exact h3
  | cons ch rest ih =>
    simp only [occursIn, Bool.or_eq_true, List.isPrefixOf_iff_prefix]
    constructor
    · rintro (⟨t, ht⟩ | h)
      · exact ⟨[], t, by simpa using ht.symm⟩
      · obtain ⟨l, r, hr⟩ := ih.mp h
        exact ⟨ch :: l, r, by simp [hr]⟩
    · rintro ⟨l, r, hlr⟩
      cases l with
      | nil => exact Or.inl ⟨r, by simpa using hlr.symm⟩
      | cons x xs =>
        right
        refine ih.mpr ⟨xs, r, ?_⟩
        simpa using congrArg List.tail hlr

theorem occursIn_nil {pat : Text} (hpat : pat ≠ []) : occursIn pat [] = false := by
  cases pat with
  | nil => exact absurd rfl hpat
  | cons c cs => simp [occursIn, List.isPrefixOf]

theorem splitFirst_none {pat : Text} (hpat : pat ≠ []) :
    ∀ {s : Text}, splitFirst pat s = none ↔ occursIn pat s = false := by
  intro s
  induction s with
  | nil => simp [splitFirst, occursIn_nil hpat]
  | cons c rest ih =>
    simp only [splitFirst, occursIn]
    by_cases h : pat.isPrefixOf (c :: rest) = true
    · simp [h]
    · simp only [Bool.not_eq_true] at h
      simp [h, ih]

theorem splitFirst_some {pat : Text} (hpat : pat ≠ []) :
    ∀ {s b a : Text}, splitFirst pat s = some (b, a) →
      s = b ++ pat ++ a ∧ occursIn pat b = false := by
  intro s
  induction s with
  | nil => intro b a h; exact Option.noConfusion h
  | cons c rest ih =>
    intro b a h
    simp only [splitFirst] at h
    by_cases hp : pat.isPrefixOf (c :: rest) = true
    · rw [if_pos hp] at h
      obtain ⟨t, ht⟩ := List.isPrefixOf_iff_prefix.mp hp
      injection h with h'
      obtain ⟨rfl, rfl⟩ := Prod.mk.injEq .. ▸ And.intro (congrArg Prod.fst h') (congrArg Prod.snd h')
      refine ⟨?_, occursIn_nil hpat⟩
      rw [← ht, List.nil_append, List.drop_left]
    · rw [if_neg hp] at h
      cases hsf : splitFirst pat rest with
      | none => rw [hsf] at h; simp at h
      | some p =>
        obtain ⟨b', a'⟩ := p
        rw [hsf] at h
        simp only [Option.map_some', Option.some.injEq, Prod.mk.injEq] at h
        obtain ⟨hb, ha⟩ := h
        obtain ⟨hrest, hocc⟩ := ih hsf
        subst hb ha
        constructor
        · simp [hrest]
        · simp only [occursIn, Bool.or_eq_false_iff]
          refine ⟨?_, hocc⟩
          rw [Bool.eq_false_iff]
          intro hpre
          apply hp
          apply List.isPrefixOf_iff_prefix.mpr
          have : c :: b' <+: c :: rest := by
            rw [hrest]
            exact ⟨pat ++ a', by simp⟩
          exact (List.isPrefixOf_iff_prefix.mp hpre).trans this

theorem pySplitHead_no_occurrence {pat s : Text} (hpat : pat ≠ []) :
    occursIn pat (pySplitHead pat s) = false := by
  unfold pySplitHead
  cases hsf : splitFirst pat s with
  | none => exact (splitFirst_none hpat).mp hsf
  | some p =>
    obtain ⟨b, a⟩ := p
    exact (splitFirst_some hpat hsf).2

theorem pySplitHead_isPre {pat s : Text} (hpat : pat ≠ []) :
    pySplitHead pat s <+: s := by
  unfold pySplitHead
  cases hsf : splitFirst pat s with
  | none => exact List.prefix_refl s
  | some p =>
    obtain ⟨b, a⟩ := p
    obtain ⟨hs, -⟩ := splitFirst_some hpat hsf
    exact ⟨pat ++ a, by simp [hs]⟩

theorem occursIn_of_sub {pat s t : Text} (hsub : s <:+: t)
    (h : occursIn pat s = true) : occursIn pat t = true := by
  obtain ⟨l, r, hs⟩ := occursIn_iff.mp h
  obtain ⟨u, v, ht⟩ := hsub
  exact occursIn_iff.mpr ⟨u ++ l, r ++ v, by rw [← ht, hs]; simp⟩

theorem occursIn_false_of_sub {pat s t : Text} (hsub : s <:+: t)
    (h : occursIn pat t = false) : occursIn pat s = false := by
  rw [Bool.eq_false_iff]
  intro hu
  rw [occursIn_of_sub hsub hu] at h
  exact Bool.true_eq_false ▸ h

theorem stripL_sub (s : Text) : stripL s <:+: s := by
  unfold stripL
  have h1 : s.dropWhile isPySpace <:+ s := List.dropWhile_suffix isPySpace
  have h2 : (s.dropWhile isPySpace).reverse.dropWhile isPySpace <:+
      (s.dropWhile isPySpace).reverse := List.dropWhile_suffix isPySpace
  have h3 : ((s.dropWhile isPySpace).reverse.dropWhile isPySpace).reverse <+:
      s.dropWhile isPySpace := by
    simpa using List.reverse_prefix.mpr h2
  exact h3.isInfix.trans h1.isInfix

theorem h2ref_ne_nil : h2ref ≠ [] := by decide

theorem occursIn_h2_of_h3 {s : Text} (h : occursIn h3ref s = true) :
    occursIn h2ref s = true := by
  obtain ⟨l, r, hs⟩ := occursIn_iff.mp h
  refine occursIn_iff.mpr ⟨l ++ ['#'], r, ?_⟩
  have : h3ref = '#' :: h2ref := by decide
  rw [hs, this]
  simp

theorem remove_refs_no_h2 (x : Text) :
    occursIn h2ref (remove_references_section x) = false := by
  unfold remove_references_section
  by_cases h0 : x = []
  · simp [h0, occursIn_nil h2ref_ne_nil]
  rw [if_neg h0]
  by_cases h2 : occursIn h2ref x = true
  · rw [if_pos h2]
    exact pySplitHead_no_occurrence h2ref_ne_nil
  · have h2' : occursIn h2ref x = false := Bool.not_eq_true _ ▸ h2
    rw [if_neg h2]
    by_cases h3 : occursIn h3ref x = true
    · rw [if_pos h3]
      exact occursIn_false_of_sub
        (@pySplitHead_isPre h3ref x (by decide)).isInfix h2'
    · rw [if_neg h3]
      exact h2'

theorem clean_no_h2 (x : Text) :
    occursIn h2ref (stripL (remove_references_section x)) = false :=
  occursIn_false_of_sub (stripL_sub _) (remove_refs_no_h2 x)

/-! Lemmas about the cache. -/

theorem cacheGet_put_self (c : Cache) (k v : Text) :
    cacheGet (cachePut c k v) k = some v := by
  induction c with
  | nil => simp [cachePut, cacheGet]
  | cons p rest ih =>
    obtain ⟨k', v'⟩ := p
    by_cases h : k' = k <;> simp [cachePut, cacheGet, h, ih]

theorem cacheGet_put_other {c : Cache} {k k' v : Text} (h : k' ≠ k) :
    cacheGet (cachePut c k v) k' = cacheGet c k' := by
  have hks : ¬ k = k' := fun he => h he.symm
  induction c with
  | nil => simp [cachePut, cacheGet, hks]
  | cons p rest ih =>
    obtain ⟨k0, v0⟩ := p
    by_cases h0 : k0 = k
    · subst h0
      simp [cachePut, cacheGet, hks]
    · simp [cachePut, cacheGet, h0, ih]

theorem cacheLe_refl (c : Cache) : cacheLe c c := fun _ _ h => h

theorem cacheLe_trans {c1 c2 c3 : Cache} (h1 : cacheLe c1 c2) (h2 : cacheLe c2 c3) :
    cacheLe c1 c3 := fun k v h => h2 k v (h1 k v h)

theorem cacheLe_put {c : Cache} {k v : Text} (h : cacheGet c k = none) :
    cacheLe c (cachePut c k v) := by
  intro k' v' h'
  by_cases hk : k' = k
  · subst hk; rw [h'] at h; exact Option.noConfusion h
  · rw [cacheGet_put_other hk]; exact h'

/-! Per-stage cache behaviour: a hit returns the cached text and leaves the
state untouched (in particular no external call is made); under an
always-successful oracle every stage leaves its key mapped to exactly the
text it returned, and preserves all existing entries. -/

theorem research_guideline_metadata_hit {topic today : Text} {fast : Bool}
    {o : Oracle} {st : PState} {v : Text}
    (h : cacheGet st.cache (metadataKey topic today fast) = some v) :
    research_guideline_metadata topic today fast true o st = (v, st) := by
  simp [research_guideline_metadata, h]

theorem research_guideline_metadata_ok {topic today : Text} {fast : Bool}
    {o : Oracle} {st : PState} (hok : OracleOk o) :
    cacheLe st.cache (research_guideline_metadata topic today fast true o st).2.cache
    ∧ cacheGet (research_guideline_metadata topic today fast true o st).2.cache
        (metadataKey topic today fast)
      = some (research_guideline_metadata topic today fast true o st).1 := by
  cases h : cacheGet st.cache (metadataKey topic today fast) with
  | some v =>
    rw [research_guideline_metadata_hit h]
    exact ⟨cacheLe_refl _, h⟩
  | none =>
    obtain ⟨s, hs, hne⟩ := hok st.log.length (.metadataPrompt topic)
    simp only [research_guideline_metadata, h, callAgent, hs, if_true, hne,
      ne_eq, not_false_eq_true, if_pos]
    exact ⟨cacheLe_put h, cacheGet_put_self _ _ _⟩

theorem research_guideline_section_hit {topic sect today : Text} {fast : Bool}
    {o : Oracle} {st : PState} {v : Text}
    (h : cacheGet st.cache (sectionKey topic sect today fast) = some v) :
    research_guideline_section topic sect today fast true o st = (v, st) := by
  simp [research_guideline_section, h]

theorem research_guideline_section_ok {topic sect today : Text} {fast : Bool}
    {o : Oracle} {st : PState} (hok : OracleOk o) :
    cacheLe st.cache (research_guideline_section topic sect today fast true o st).2.cache
    ∧ cacheGet (research_guideline_section topic sect today fast true o st).2.cache
        (sectionKey topic sect today fast)
      = some (research_guideline_section topic sect today fast true o st).1 := by
  cases h : cacheGet st.cache (sectionKey topic sect today fast) with
  | some v =>
    rw [research_guideline_section_hit h]
    exact ⟨cacheLe_refl _, h⟩
  | none =>
    obtain ⟨s, hs, hne⟩ := hok st.log.length (.sectionPrompt topic sect)
    simp only [research_guideline_section, h, callAgent, hs, if_true, hne,
      ne_eq, not_false_eq_true, if_pos]
    exact ⟨cacheLe_put h, cacheGet_put_self _ _ _⟩

theorem research_new_recommendations_hit {topic today : Text} {fast : Bool}
    {o : Oracle} {st : PState} {v : Text}
    (h : cacheGet st.cache (newRecsKey topic today fast) = some v) :
    research_new_recommendations topic today fast true o st = (v, st) := by
  simp [research_new_recommendations, h]

theorem research_new_recommendations_ok {topic today : Text} {fast : Bool}
    {o : Oracle} {st : PState} (hok : OracleOk o) :
    cacheLe st.cache (research_new_recommendations topic today fast true o st).2.cache
    ∧ cacheGet (research_new_recommendations topic today fast true o st).2.cache
        (newRecsKey topic today fast)
      = some (research_new_recommendations topic today fast true o st).1 := by
  cases h : cacheGet st.cache (newRecsKey topic today fast) with
  | some v =>
    rw [research_new_recommendations_hit h]
    exact ⟨cacheLe_refl _, h⟩
  | none =>
    obtain ⟨s, hs, hne⟩ := hok st.log.length (.newRecsPrompt topic)
    simp only [research_new_recommendations, h, callAgent, hs, if_true, hne,
      ne_eq, not_false_eq_true, if_pos]
    exact ⟨cacheLe_put h, cacheGet_put_self _ _ _⟩

theorem research_comprehensive_conclusion_hit
    {topic metadata_result sections_summary today : Text} {fast : Bool}
    {o : Oracle} {st : PState} {v : Text}
    (h : cacheGet st.cache (conclusionKey topic today fast) = some v) :
    research_comprehensive_conclusion topic metadata_result sections_summary today fast true o st
      = (v, st) := by
  simp [research_comprehensive_conclusion, h]

theorem research_comprehensive_conclusion_ok
    {topic metadata_result sections_summary today : Text} {fast : Bool}
    {o : Oracle} {st : PState} (hok : OracleOk o) :
    cacheLe st.cache
      (research_comprehensive_conclusion topic metadata_result sections_summary
        today fast true o st).2.cache
    ∧ cacheGet (research_comprehensive_conclusion topic metadata_result sections_summary
        today fast true o st).2.cache (conclusionKey topic today fast)
      = some (research_comprehensive_conclusion topic metadata_result sections_summary
          today fast true o st).1 := by
  cases h : cacheGet st.cache (conclusionKey topic today fast) with
  | some v =>
    rw [research_comprehensive_conclusion_hit h]
    exact ⟨cacheLe_refl _, h⟩
  | none =>
    obtain ⟨s, hs, hne⟩ := hok st.log.length
      (.conclusionPrompt topic (extract_key_points metadata_result sections_summary))
    simp only [research_comprehensive_conclusion, h, callAgent, hs, if_true, hne,
      ne_eq, not_false_eq_true, if_pos]
    exact ⟨cacheLe_put h, cacheGet_put_self _ _ _⟩

theorem generate_context_adaptations_hit {topic sections_content today : Text} {fast : Bool}
    {o : Oracle} {st : PState} {v : Text}
    (h : cacheGet st.cache (contextKey topic today fast) = some v) :
    generate_context_adaptations topic sections_content today fast true o st = (v, st) := by
  simp [generate_context_adaptations, h]

theorem generate_context_adaptations_ok {topic sections_content today : Text} {fast : Bool}
    {o : Oracle} {st : PState} (hok : OracleOk o) :
    cacheLe st.cache
      (generate_context_adaptations topic sections_content today fast true o st).2.cache
    ∧ cacheGet (generate_context_adaptations topic sections_content today fast true o st).2.cache
        (contextKey topic today fast)
      = some (generate_context_adaptations topic sections_content today fast true o st).1 := by
  cases h : cacheGet st.cache (contextKey topic today fast) with
  | some v =>
    rw [generate_context_adaptations_hit h]
    exact ⟨cacheLe_refl _, h⟩
  | none =>
    obtain ⟨s, hs, hne⟩ := hok st.log.length
      (.contextPrompt topic (extract_recommendations sections_content))
    simp only [generate_context_adaptations, h, callAgent, hs, if_true, hne,
      ne_eq, not_false_eq_true, if_pos]
    exact ⟨cacheLe_put h, cacheGet_put_self _ _ _⟩

theorem research_original_recommendations_ok {topic sect : Text} {o : Oracle} {st : PState}
    (hok : OracleOk o) :
    ∃ r, research_original_recommendations topic sect o st
      = .ok (r, ⟨st.cache, st.log ++ [Prompt.originalRecsPrompt topic sect]⟩) := by
  obtain ⟨s, hs, hne⟩ := hok st.log.length (.originalRecsPrompt topic sect)
  exact ⟨s, by simp [research_original_recommendations, callAgent, hs, hne]⟩

theorem research_section_evidence_ok {topic sect original_recommendations : Text}
    {o : Oracle} {st : PState} (hok : OracleOk o) :
    ∃ r, research_section_evidence topic sect original_recommendations o st
      = .ok (r, ⟨st.cache,
          st.log ++ [Prompt.evidencePrompt topic sect original_recommendations]⟩) := by
  obtain ⟨s, hs, hne⟩ := hok st.log.length
    (.evidencePrompt topic sect original_recommendations)
  exact ⟨s, by simp [research_section_evidence, callAgent, hs, hne]⟩

theorem generate_updated_recommendations_ok
    {topic sect original_recommendations evidence_analysis : Text}
    {o : Oracle} {st : PState} (hok : OracleOk o) :
    ∃ r, generate_updated_recommendations topic sect original_recommendations
        evidence_analysis o st
      = .ok (r, ⟨st.cache,
          st.log ++ [Prompt.updatedRecsPrompt topic sect original_recommendations
            evidence_analysis]⟩) := by
  obtain ⟨s, hs, hne⟩ := hok st.log.length
    (.updatedRecsPrompt topic sect original_recommendations evidence_analysis)
  exact ⟨s, by simp [generate_updated_recommendations, callAgent, hs, hne]⟩

theorem identify_guideline_gaps_ok {topic : Text} {o : Oracle} {st : PState}
    (hok : OracleOk o) :
    ∃ r, identify_guideline_gaps topic o st
      = .ok (r, ⟨st.cache, st.log ++ [Prompt.gapsPrompt topic]⟩) := by
  obtain ⟨s, hs, hne⟩ := hok st.log.length (.gapsPrompt topic)
  exact ⟨s, by simp [identify_guideline_gaps, callAgent, hs, hne]⟩

theorem research_single_gap_ok {topic gap_area : Text} {o : Oracle} {st : PState}
    (hok : OracleOk o) :
    ∃ r, research_single_gap topic gap_area o st
      = .ok (r, ⟨st.cache, st.log ++ [Prompt.singleGapPrompt topic gap_area]⟩) := by
  obtain ⟨s, hs, hne⟩ := hok st.log.length (.singleGapPrompt topic gap_area)
  exact ⟨s, by simp [research_single_gap, callAgent, hs, hne]⟩

theorem runGapLoop_ok {topic : Text} {o : Oracle} (hok : OracleOk o) :
    ∀ (gaps : List Text) (st : PState),
      ∃ rs L, runGapLoop topic o gaps st = .ok (rs, ⟨st.cache, L⟩) := by
  intro gaps
  induction gaps with
  | nil => intro st; exact ⟨[], st.log, by simp [runGapLoop]⟩
  | cons g gs ih =>
    intro st
    obtain ⟨r, h1⟩ := @research_single_gap_ok topic g o st hok
    obtain ⟨rs, L, h2⟩ := ih ⟨st.cache, st.log ++ [Prompt.singleGapPrompt topic g]⟩
    exact ⟨r :: rs, L, by simp [runGapLoop, h1, h2]⟩

theorem research_section_chunked_hit {topic sect today : Text} {fast : Bool}
    {o : Oracle} {st : PState} {v : Text}
    (h : cacheGet st.cache (chunkedSectionKey topic sect today fast) = some v) :
    research_section_chunked topic sect today fast true o st = .ok (v, st) := by
  simp [research_section_chunked, h]

theorem research_section_chunked_ok {topic sect today : Text} {fast : Bool}
    {o : Oracle} {st : PState} (hok : OracleOk o) :
    ∃ r st', research_section_chunked topic sect today fast true o st = .ok (r, st')
      ∧ cacheLe st.cache st'.cache
      ∧ cacheGet st'.cache (chunkedSectionKey topic sect today fast) = some r := by
  cases h : cacheGet st.cache (chunkedSectionKey topic sect today fast) with
  | some v =>
    exact ⟨v, st, research_section_chunked_hit h, cacheLe_refl _, h⟩
  | none =>
    obtain ⟨r1, h1⟩ :=
      @research_original_recommendations_ok topic sect o st hok
    obtain ⟨r2, h2⟩ := @research_section_evidence_ok topic sect r1 o
      ⟨st.cache, st.log ++ [Prompt.originalRecsPrompt topic sect]⟩ hok
    obtain ⟨r3, h3⟩ := @generate_updated_recommendations_ok topic sect r1 r2 o
      ⟨st.cache, st.log ++ [Prompt.originalRecsPrompt topic sect,
        Prompt.evidencePrompt topic sect r1]⟩ hok
    refine ⟨chunkHeadT ++ sect ++ nl2T ++ r3 ++ chunkTailT,
      ⟨cachePut st.cache (chunkedSectionKey topic sect today fast)
          (chunkHeadT ++ sect ++ nl2T ++ r3 ++ chunkTailT),
        ((st.log ++ [Prompt.originalRecsPrompt topic sect])
          ++ [Prompt.evidencePrompt topic sect r1])
          ++ [Prompt.updatedRecsPrompt topic sect r1 r2]⟩, ?_,
      cacheLe_put h, cacheGet_put_self _ _ _⟩
    simp [research_section_chunked, h, h1, h2, h3]

theorem research_new_recommendations_chunked_hit {topic today : Text} {fast : Bool}
    {o : Oracle} {st : PState} {v : Text}
    (h : cacheGet st.cache (newRecsChunkedKey topic today fast) = some v) :
    research_new_recommendations_chunked topic today fast true o st = .ok (v, st) := by
  simp [research_new_recommendations_chunked, h]

theorem research_new_recommendations_chunked_ok {topic today : Text} {fast : Bool}
    {o : Oracle} {st : PState} (hok : OracleOk o) :
    ∃ r st', research_new_recommendations_chunked topic today fast true o st = .ok (r, st')
      ∧ cacheLe st.cache st'.cache
      ∧ cacheGet st'.cache (newRecsChunkedKey topic today fast) = some r := by
  cases h : cacheGet st.cache (newRecsChunkedKey topic today fast) with
  | some v =>
    exact ⟨v, st, research_new_recommendations_chunked_hit h, cacheLe_refl _, h⟩
  | none =>
    obtain ⟨r1, h1⟩ := @identify_guideline_gaps_ok topic o st hok
    obtain ⟨rs, L, h2⟩ := @runGapLoop_ok topic o hok (extract_gap_areas r1)
      ⟨st.cache, st.log ++ [Prompt.gapsPrompt topic]⟩
    refine ⟨newRecsHeadT ++ List.intercalate nl2T rs ++ chunkTailT,
      ⟨cachePut st.cache (newRecsChunkedKey topic today fast)
          (newRecsHeadT ++ List.intercalate nl2T rs ++ chunkTailT), L⟩, ?_,
      cacheLe_put h, cacheGet_put_self _ _ _⟩
    simp [research_new_recommendations_chunked, h, h1, h2]

/-! Step-level lemmas for the orchestration of `main`, and the second-run
replay argument. -/

theorem sectionStep_hit {cfg : Config} {sect : Text} {o : Oracle} {st : PState} {v : Text}
    (hc : cfg.useCache = true)
    (h : cacheGet st.cache (sectionStepKey cfg sect) = some v) :
    sectionStep cfg sect o st = .ok (v, st) := by
  unfold sectionStep
  unfold sectionStepKey at h
  by_cases hch : cfg.chunked
  · rw [if_pos hch] at h ⊢
    rw [hc]
    exact research_section_chunked_hit h
  · rw [if_neg hch] at h ⊢
    rw [hc, research_guideline_section_hit h]

theorem sectionStep_ok {cfg : Config} {sect : Text} {o : Oracle} {st : PState}
    (hok : OracleOk o) (hc : cfg.useCache = true) :
    ∃ r st', sectionStep cfg sect o st = .ok (r, st')
      ∧ cacheLe st.cache st'.cache
      ∧ cacheGet st'.cache (sectionStepKey cfg sect) = some r := by
  unfold sectionStep sectionStepKey
  by_cases hch : cfg.chunked
  · simp only [if_pos hch, hc]
    exact research_section_chunked_ok hok
  · simp only [if_neg hch, hc]
    obtain ⟨hle, hget⟩ := @research_guideline_section_ok cfg.topic sect cfg.today cfg.fast o st hok
    exact ⟨_, _, rfl, hle, hget⟩

theorem SectionsCached_mono {cfg : Config} {c c' : Cache} {secs rs : List Text}
    (hle : cacheLe c c') (h : SectionsCached cfg c secs rs) :
    SectionsCached cfg c' secs rs :=
  h.imp (fun _ _ hab => hle _ _ hab)

theorem runSections_ok {cfg : Config} {o : Oracle} (hok : OracleOk o) (hc : cfg.useCache = true) :
    ∀ (secs : List Text) (st : PState), ∃ rs st',
      runSections cfg o secs st = .ok (rs, st')
      ∧ cacheLe st.cache st'.cache
      ∧ SectionsCached cfg st'.cache secs rs := by
  intro secs
  induction secs with
  | nil =>
    intro st
    exact ⟨[], st, by simp [runSections], cacheLe_refl _, List.Forall₂.nil⟩
  | cons sect rest ih =>
    intro st
    obtain ⟨r, st1, h1, hle1, hget1⟩ := @sectionStep_ok cfg sect o st hok hc
    obtain ⟨rs, st2, h2, hle2, hcached⟩ := ih st1
    refine ⟨r :: rs, st2, ?_, cacheLe_trans hle1 hle2, ?_⟩
    · simp [runSections, h1, h2]
    · exact List.Forall₂.cons (hle2 _ _ hget1) hcached

theorem runSections_replay {cfg : Config} {o₂ : Oracle} (hc : cfg.useCache = true) :
    ∀ {secs rs : List Text} {c : Cache} {L : List Prompt},
      SectionsCached cfg c secs rs →
      runSections cfg o₂ secs ⟨c, L⟩ = .ok (rs, ⟨c, L⟩) := by
  intro secs
  induction secs with
  | nil =>
    intro rs c L h
    cases h
    simp [runSections]
  | cons sect rest ih =>
    intro rs c L h
    cases h with
    | cons hget hrest =>
      simp [runSections, @sectionStep_hit cfg sect o₂ ⟨c, L⟩ _ hc hget, ih hrest]

theorem NewCached_mono {cfg : Config} {c c' : Cache} {r : Text}
    (hle : cacheLe c c') (h : NewCached cfg c r) : NewCached cfg c' r := by
  unfold NewCached at *
  by_cases hn : cfg.includeNew
  · rw [if_pos hn] at h ⊢; exact hle _ _ h
  · rwa [if_neg hn] at h ⊢

theorem newRecsStep_ok {cfg : Config} {o : Oracle} {st : PState}
    (hok : OracleOk o) (hc : cfg.useCache = true) :
    ∃ r st', newRecsStep cfg o st = .ok (r, st')
      ∧ cacheLe st.cache st'.cache ∧ NewCached cfg st'.cache r := by
  unfold newRecsStep NewCached newRecsStepKey
  by_cases hn : cfg.includeNew
  · simp only [if_pos hn]
    by_cases hch : cfg.chunked
    · simp only [if_pos hch, hc]
      exact research_new_recommendations_chunked_ok hok
    · simp only [if_neg hch, hc]
      obtain ⟨hle, hget⟩ := @research_new_recommendations_ok cfg.topic cfg.today cfg.fast o st hok
      exact ⟨_, _, rfl, hle, hget⟩
  · simp only [if_neg hn]
    exact ⟨[], st, rfl, cacheLe_refl _, rfl⟩

theorem newRecsStep_replay {cfg : Config} {o₂ : Oracle} {c : Cache} {L : List Prompt} {r : Text}
    (hc : cfg.useCache = true) (h : NewCached cfg c r) :
    newRecsStep cfg o₂ ⟨c, L⟩ = .ok (r, ⟨c, L⟩) := by
  unfold newRecsStep
  unfold NewCached newRecsStepKey at h
  by_cases hn : cfg.includeNew
  · rw [if_pos hn] at h ⊢
    by_cases hch : cfg.chunked
    · rw [if_pos hch] at h ⊢
      rw [hc]
      exact research_new_recommendations_chunked_hit h
    · rw [if_neg hch] at h ⊢
      rw [hc, research_new_recommendations_hit h]
  · rw [if_neg hn] at h ⊢
    rw [h]

theorem ConclCached_mono {cfg : Config} {c c' : Cache} {r : Text}
    (hle : cacheLe c c') (h : ConclCached cfg c r) : ConclCached cfg c' r := by
  unfold ConclCached at *
  by_cases hcc : cfg.includeConclusion
  · rw [if_pos hcc] at h ⊢; exact hle _ _ h
  · rwa [if_neg hcc] at h ⊢

theorem conclusionStep_ok {cfg : Config} {m comb : Text} {o : Oracle} {st : PState}
    (hok : OracleOk o) (hc : cfg.useCache = true) :
    cacheLe st.cache (conclusionStep cfg m comb o st).2.cache
    ∧ ConclCached cfg (conclusionStep cfg m comb o st).2.cache
        (conclusionStep cfg m comb o st).1 := by
  unfold conclusionStep ConclCached
  by_cases hcc : cfg.includeConclusion
  · simp only [if_pos hcc, hc]
    exact research_comprehensive_conclusion_ok hok
  · simp only [if_neg hcc]
    exact ⟨cacheLe_refl _, trivial⟩

theorem conclusionStep_replay {cfg : Config} {m comb : Text} {o₂ : Oracle}
    {c : Cache} {L : List Prompt} {r : Text}
    (hc : cfg.useCache = true) (h : ConclCached cfg c r) :
    conclusionStep cfg m comb o₂ ⟨c, L⟩ = (r, ⟨c, L⟩) := by
  unfold conclusionStep
  unfold ConclCached at h
  by_cases hcc : cfg.includeConclusion
  · rw [if_pos hcc] at h ⊢
    rw [hc, research_comprehensive_conclusion_hit h]
  · rw [if_neg hcc] at h ⊢
    rw [h]

theorem contextStep_ok {cfg : Config} {comb : Text} {o : Oracle} {st : PState}
    (hok : OracleOk o) (hc : cfg.useCache = true) :
    cacheLe st.cache (contextStep cfg comb o st).2.cache
    ∧ ContextCached cfg (contextStep cfg comb o st).2.cache (contextStep cfg comb o st).1 := by
  unfold contextStep ContextCached
  by_cases hcx : cfg.includeContext
  · simp only [if_pos hcx, hc]
    exact generate_context_adaptations_ok hok
  · simp only [if_neg hcx]
    exact ⟨cacheLe_refl _, trivial⟩

theorem contextStep_replay {cfg : Config} {comb : Text} {o₂ : Oracle}
    {c : Cache} {L : List Prompt} {r : Text}
    (hc : cfg.useCache = true) (h : ContextCached cfg c r) :
    contextStep cfg comb o₂ ⟨c, L⟩ = (r, ⟨c, L⟩) := by
  unfold contextStep
  unfold ContextCached at h
  by_cases hcx : cfg.includeContext
  · rw [if_pos hcx] at h ⊢
    rw [hc, generate_context_adaptations_hit h]
  · rw [if_neg hcx] at h ⊢
    rw [h]

theorem runPipeline_replay {cfg : Config} {o o₂ : Oracle} {c0 : Cache}
    (hok : OracleOk o) (hc : cfg.useCache = true) :
    SecondRunClean cfg o₂ (runPipeline cfg o c0) := by
  obtain ⟨hleM, hgetM⟩ :=
    @research_guideline_metadata_ok cfg.topic cfg.today cfg.fast o ⟨c0, []⟩ hok
  set mr := research_guideline_metadata cfg.topic cfg.today cfg.fast true o ⟨c0, []⟩ with hmr
  obtain ⟨rs, st2, h2, hle2, hcach2⟩ := runSections_ok hok hc cfg.sections mr.2
  obtain ⟨nr, st3, h3, hle3, hnew3⟩ := @newRecsStep_ok cfg o st2 hok hc
  set comb := List.intercalate nl2T rs with hcomb
  obtain ⟨hle4, hconc4⟩ := @conclusionStep_ok cfg mr.1 comb o st3 hok hc
  set cr := conclusionStep cfg mr.1 comb o st3 with hcr
  obtain ⟨hle5, hctx5⟩ := @contextStep_ok cfg comb o cr.2 hok hc
  set xr := contextStep cfg comb o cr.2 with hxr
  have hrun1 : runPipeline cfg o c0 = .ok
      (assemble_complete_guidelines_with_adaptations mr.1 comb nr cr.1 xr.1, xr.2) := by
    simp only [runPipeline, hc, ← hmr, h2, ← hcomb, h3, ← hcr, ← hxr]
  have hle25 : cacheLe st2.cache xr.2.cache :=
    cacheLe_trans hle3 (cacheLe_trans hle4 hle5)
  have hgetM' : cacheGet xr.2.cache (metadataKey cfg.topic cfg.today cfg.fast) = some mr.1 :=
    cacheLe_trans hle2 hle25 _ _ hgetM
  have hcach2' : SectionsCached cfg xr.2.cache cfg.sections rs :=
    SectionsCached_mono hle25 hcach2
  have hnew3' : NewCached cfg xr.2.cache nr :=
    NewCached_mono (cacheLe_trans hle4 hle5) hnew3
  have hconc4' : ConclCached cfg xr.2.cache cr.1 := ConclCached_mono hle5 hconc4
  have hrun2 : runPipeline cfg o₂ xr.2.cache = .ok
      (assemble_complete_guidelines_with_adaptations mr.1 comb nr cr.1 xr.1,
        ⟨xr.2.cache, []⟩) := by
    simp only [runPipeline, hc,
      @research_guideline_metadata_hit cfg.topic cfg.today cfg.fast o₂ ⟨xr.2.cache, []⟩ mr.1
        hgetM',
      @runSections_replay cfg o₂ hc cfg.sections rs xr.2.cache [] hcach2',
      ← hcomb,
      @newRecsStep_replay cfg o₂ xr.2.cache [] nr hc hnew3',
      @conclusionStep_replay cfg mr.1 comb o₂ xr.2.cache [] cr.1 hc hconc4',
      @contextStep_replay cfg comb o₂ xr.2.cache [] xr.1 hc hctx5]
  rw [hrun1]
  exact hrun2

/-! The fixed segment layout of the assembled document. -/

theorem assemble_decomp (m s n c a : Text) :
    ∃ t r, assemble_complete_guidelines_with_adaptations m s n c a
      = t ++ comparisonLabel ++ stripL (remove_references_section s) ++ nl2T ++ sepT
          ++ optBlock newRecsLabel (cleanOpt n)
          ++ optBlock conclusionLabel (cleanOpt c)
          ++ optBlock adaptationsLabel (cleanOpt a)
          ++ referencesLabel ++ r := by
  refine ⟨stripL (assembleTitle m) ++ nl2T ++ sepT
      ++ create_table_of_contents_with_adaptations (stripL (remove_references_section s))
          (cleanOpt n) (cleanOpt c) (cleanOpt a) ++ nl2T ++ sepT,
    stripL (referencesSection m s n c a), ?_⟩
  simp only [assemble_complete_guidelines_with_adaptations, cleanOpt, optBlock,
    List.append_assoc]

theorem cleanOpt_no_h2 (x : Text) : occursIn h2ref (cleanOpt x) = false := by
  unfold cleanOpt
  by_cases hx : x ≠ []
  · rw [if_pos hx]; exact clean_no_h2 x
  · rw [if_neg hx]; exact occursIn_nil h2ref_ne_nil

/-! Dedup lemmas for the reference combination. -/

theorem dedupNonblankLines_sublist : ∀ (ls seen : List Text),
    List.Sublist (dedupNonblankLines ls seen) ls := by
  intro ls
  induction ls with
  | nil => intro seen; simp [dedupNonblankLines]
  | cons l rest ih =>
    intro seen
    unfold dedupNonblankLines
    by_cases h : stripL l ≠ [] ∧ l ∉ seen
    · rw [if_pos h]; exact (ih (l :: seen)).cons₂ l
    · rw [if_neg h]; exact (ih seen).cons l

theorem dedupNonblankLines_notin_seen : ∀ (ls seen : List Text),
    ∀ x ∈ dedupNonblankLines ls seen, x ∉ seen := by
  intro ls
  induction ls with
  | nil => intro seen x hx; simp [dedupNonblankLines] at hx
  | cons l rest ih =>
    intro seen x hx
    unfold dedupNonblankLines at hx
    by_cases h : stripL l ≠ [] ∧ l ∉ seen
    · rw [if_pos h] at hx
      rcases List.mem_cons.mp hx with rfl | hx'
      · exact h.2
      · intro hmem
        exact ih (l :: seen) x hx' (List.mem_cons_of_mem l hmem)
    · rw [if_neg h] at hx
      exact ih seen x hx

theorem dedupNonblankLines_nodup : ∀ (ls seen : List Text),
    (dedupNonblankLines ls seen).Nodup := by
  intro ls
  induction ls with
  | nil => intro seen; simp [dedupNonblankLines]
  | cons l rest ih =>
    intro seen
    unfold dedupNonblankLines
    by_cases h : stripL l ≠ [] ∧ l ∉ seen
    · rw [if_pos h]
      refine List.Nodup.cons ?_ (ih (l :: seen))
      intro hmem
      exact dedupNonblankLines_notin_seen rest (l :: seen) l hmem (List.mem_cons_self l seen)
    · rw [if_neg h]; exact ih seen

theorem dedupNonblankLines_nonblank : ∀ (ls seen : List Text),
    ∀ x ∈ dedupNonblankLines ls seen, stripL x ≠ [] := by
  intro ls
  induction ls with
  | nil => intro seen x hx; simp [dedupNonblankLines] at hx
  | cons l rest ih =>
    intro seen x hx
    unfold dedupNonblankLines at hx
    by_cases h : stripL l ≠ [] ∧ l ∉ seen
    · rw [if_pos h] at hx
      rcases List.mem_cons.mp hx with rfl | hx'
      · exact h.1
      · exact ih (l :: seen) x hx'
    · rw [if_neg h] at hx
      exact ih seen x hx

/-! Injectivity structure of the cache-key string encoding. -/

theorem encodeKey_eq (k : CacheKeyTuple) :
    encodeKey k = tupleCore k ++ (usT ++ (tupleDate k ++ (usT ++ modeText (tupleFast k)))) := by
  have h1 : metadataKeyMid = "_metadata".data ++ usT := by decide
  have h2 : chunkedKeyMid = "_chunked".data ++ usT := by decide
  have h3 : newRecsKeyMid = "_new_recommendations".data ++ usT := by decide
  have h4 : newRecsChunkedKeyMid = "_new_recs_chunked".data ++ usT := by decide
  have h5 : conclusionKeyMid = "_conclusion".data ++ usT := by decide
  have h6 : contextKeyMid = "_context_adaptations".data ++ usT := by decide
  cases k <;>
    simp [encodeKey, metadataKey, sectionKey, chunkedSectionKey, newRecsKey,
      newRecsChunkedKey, conclusionKey, contextKey, tupleCore, tupleDate, tupleFast,
      h1, h2, h3, h4, h5, h6, List.append_assoc]

theorem modeText_length (f : Bool) : (modeText f).length = 4 := by
  cases f <;> decide

theorem modeText_inj {f f' : Bool} (h : modeText f = modeText f') : f = f' := by
  cases f <;> cases f' <;> first | rfl | exact absurd h (by decide)

theorem encodeKey_date_mode {k k' : CacheKeyTuple}
    (h : encodeKey k = encodeKey k')
    (hd : (tupleDate k).length = (tupleDate k').length) :
    tupleDate k = tupleDate k' ∧ tupleFast k = tupleFast k' := by
  rw [encodeKey_eq, encodeKey_eq] at h
  have hsuffix : usT ++ (tupleDate k ++ (usT ++ modeText (tupleFast k)))
      = usT ++ (tupleDate k' ++ (usT ++ modeText (tupleFast k'))) :=
    (List.append_inj' h (by simp [usT, hd, modeText_length])).2
  have htail : tupleDate k ++ (usT ++ modeText (tupleFast k))
      = tupleDate k' ++ (usT ++ modeText (tupleFast k')) := by
    have := congrArg List.tail hsuffix
    simpa [usT] using this
  obtain ⟨hdate, hrest⟩ := List.append_inj htail hd
  refine ⟨hdate, ?_⟩
  apply modeText_inj
  have := congrArg List.tail hrest
  simpa [usT] using this

/-! Progress-value lemmas. -/

theorem frac_mono {tT : ℚ} (h0 : 0 ≤ tT) (n : Nat) {p q : ℚ} (hpq : p ≤ q) :
    p * tT / (n : ℚ) ≤ q * tT / (n : ℚ) := by
  rcases Nat.eq_zero_or_pos n with hn | hn
  · subst hn; simp
  · have hnq : (0 : ℚ) < (n : ℚ) := by exact_mod_cast hn
    apply div_le_div_of_nonneg_right ?_ hnq.le
    exact mul_le_mul_of_nonneg_right hpq h0

theorem pairwise_pair {a b : ℚ} (h : a ≤ b) : List.Pairwise (· ≤ ·) [a, b] := by
  refine List.Pairwise.cons ?_ ?_
  · intro y hy
    rcases List.mem_singleton.mp hy with rfl
    exact h
  · refine List.Pairwise.cons ?_ List.Pairwise.nil
    intro y hy
    cases hy

theorem secVals_spec {tT : ℚ} (h0 : 0 ≤ tT) (n : Nat) :
    ∀ i, List.Pairwise (· ≤ ·) (secVals tT n i)
      ∧ ∀ x ∈ secVals tT n i, 20 ≤ x ∧ x ≤ 20 + (i : ℚ) * tT / (n : ℚ) := by
  intro i
  induction i with
  | zero => simp [secVals]
  | succ j ih =>
    obtain ⟨hpw, hbd⟩ := ih
    have hj0 : (0 : ℚ) ≤ (j : ℚ) := by positivity
    have hfrac0 : 0 ≤ (j : ℚ) * tT / (n : ℚ) := by positivity
    have hstep : (j : ℚ) * tT / (n : ℚ) ≤ ((j : ℚ) + 1) * tT / (n : ℚ) :=
      frac_mono h0 n (by linarith)
    have hcast : ((j + 1 : Nat) : ℚ) = (j : ℚ) + 1 := by push_cast; ring
    constructor
    · rw [secVals, List.pairwise_append]
      refine ⟨hpw, pairwise_pair (by linarith), ?_⟩
      · intro x hx y hy
        have hxb := (hbd x hx).2
        rcases List.mem_cons.mp hy with rfl | hy'
        · linarith
        · rcases List.mem_singleton.mp hy' with rfl
          linarith
    · intro x hx
      rw [secVals] at hx
      rcases List.mem_append.mp hx with hx' | hx'
      · obtain ⟨hlo, hhi⟩ := hbd x hx'
        rw [hcast]
        exact ⟨hlo, by linarith⟩
      · rw [hcast]
        rcases List.mem_cons.mp hx' with rfl | hx''
        · exact ⟨by linarith, by linarith⟩
        · rcases List.mem_singleton.mp hx'' with rfl
          exact ⟨by linarith, le_refl _⟩

theorem secVals_top {tT : ℚ} (h0 : 0 ≤ tT) (n : Nat) :
    20 + (n : ℚ) * tT / (n : ℚ) ≤ 20 + tT := by
  rcases Nat.eq_zero_or_pos n with hn | hn
  · subst hn; simp [h0]
  · have hnq : (n : ℚ) ≠ 0 := by
      have : (0 : ℚ) < (n : ℚ) := by exact_mod_cast hn
      exact ne_of_gt this
    rw [mul_comm, mul_div_assoc, div_self hnq, mul_one]

theorem sectionProgressTotal_bounds (b : Bool) :
    0 ≤ sectionProgressTotal b ∧ sectionProgressTotal b ≤ 60 := by
  cases b <;> norm_num [sectionProgressTotal]

theorem progressComponentVals_bounds (cfg : Config) :
    ∀ x ∈ progressComponentVals cfg,
      20 + sectionProgressTotal cfg.includeContext ≤ x ∧ x ≤ 100 := by
  cases hn : cfg.includeNew <;> cases hc : cfg.includeConclusion <;>
    cases hx : cfg.includeContext <;>
      simp [progressComponentVals, sectionProgressTotal, hn, hc, hx] <;>
      norm_num

theorem progressValues_in_range (cfg : Config) :
    ∀ x ∈ progressValues cfg, 0 ≤ x ∧ x ≤ 100 := by
  intro x hx
  obtain ⟨ht0, htB⟩ := sectionProgressTotal_bounds cfg.includeContext
  unfold progressValues at hx
  simp only [List.mem_append] at hx
  rcases hx with ((hx | hx) | hx) | hx
  · simp only [List.mem_cons, List.mem_singleton, List.not_mem_nil] at hx
    rcases hx with rfl | hx
    · norm_num
    · rcases hx with rfl | hx
      · norm_num
      · cases hx
  · obtain ⟨hlo, hhi⟩ := (secVals_spec ht0 cfg.sections.length cfg.sections.length).2 x hx
    have htop := @secVals_top (sectionProgressTotal cfg.includeContext) ht0
      cfg.sections.length
    exact ⟨by linarith, by linarith⟩
  · obtain ⟨hlo, hhi⟩ := progressComponentVals_bounds cfg x hx
    exact ⟨by linarith, hhi⟩
  · simp only [List.mem_cons, List.mem_singleton, List.not_mem_nil] at hx
    rcases hx with rfl | hx
    · norm_num
    · rcases hx with rfl | hx
      · norm_num
      · cases hx

theorem progressValues_pairwise_no_optional (cfg : Config)
    (hn : cfg.includeNew = false) (hcc : cfg.includeConclusion = false)
    (hx : cfg.includeContext = false) :
    List.Pairwise (· ≤ ·) (progressValues cfg) := by
  have ht : sectionProgressTotal cfg.includeContext = 60 := by
    simp [sectionProgressTotal, hx]
  have hcomp : progressComponentVals cfg = [] := by
    simp [progressComponentVals, hn, hcc, hx]
  obtain ⟨hpw, hbd⟩ := @secVals_spec (60 : ℚ) (by norm_num)
    cfg.sections.length cfg.sections.length
  have htop := @secVals_top (60 : ℚ) (by norm_num) cfg.sections.length
  unfold progressValues
  rw [hcomp, ht]
  rw [List.append_nil]
  rw [List.pairwise_append]
  refine ⟨?_, pairwise_pair (by norm_num), ?_⟩
  · rw [List.pairwise_append]
    refine ⟨pairwise_pair (by norm_num), hpw, ?_⟩
    · intro x hxm y hym
      have := (hbd y hym).1
      simp only [List.mem_cons, List.mem_singleton, List.not_mem_nil] at hxm
      rcases hxm with rfl | hxm
      · linarith
      · rcases hxm with rfl | hxm
        · linarith
        · cases hxm
  · intro x hxm y hym
    have hxv : x = 10 ∨ x = 20 ∨ x ≤ 80 := by
      rcases List.mem_append.mp hxm with hxm' | hxm'
      · simp only [List.mem_cons, List.mem_singleton, List.not_mem_nil] at hxm'
        rcases hxm' with rfl | hxm'
        · exact Or.inl rfl
        · rcases hxm' with rfl | hxm'
          · exact Or.inr (Or.inl rfl)
          · cases hxm'
      · have := (hbd x hxm').2
        exact Or.inr (Or.inr (by linarith))
    have hyv : y = 98 ∨ y = 100 := by
      simp only [List.mem_cons, List.mem_singleton, List.not_mem_nil] at hym
      rcases hym with rfl | hym
      · exact Or.inl rfl
      · rcases hym with rfl | hym
        · exact Or.inr rfl
        · cases hym
    rcases hxv with rfl | rfl | hxv <;> rcases hyv with rfl | rfl <;> norm_num
    · linarith
    · linarith

/-! Helpers for the reference-fallback and end-to-end claims. -/

theorem combine_references_single {block : Text} (hb : block ≠ []) :
    combine_references [block, [], [], []]
      = List.intercalate nlT (dedupNonblankLines (pySplit nlT block) []) := by
  unfold combine_references
  have hbe : block.isEmpty = false := by
    cases block with
    | nil => exact absurd rfl hb
    | cons x xs => rfl
  have hfilter : ([block, [], [], []] : List Text).filter (fun r => !r.isEmpty) = [block] := by
    simp [List.filter, hbe]
  rw [hfilter]
  have hinter : List.intercalate nl2T [block] = block := by
    simp [List.intercalate, List.intersperse]
  rw [hinter]
  simp [hb]

theorem assemble_refs_suffix (m s n c a : Text) :
    ∃ pre, assemble_complete_guidelines_with_adaptations m s n c a
      = pre ++ referencesLabel ++ stripL (referencesSection m s n c a) := by
  refine ⟨stripL (assembleTitle m) ++ nl2T ++ sepT
      ++ create_table_of_contents_with_adaptations (stripL (remove_references_section s))
          (cleanOpt n) (cleanOpt c) (cleanOpt a) ++ nl2T ++ sepT
      ++ comparisonLabel ++ stripL (remove_references_section s) ++ nl2T ++ sepT
      ++ optBlock newRecsLabel (cleanOpt n)
      ++ optBlock conclusionLabel (cleanOpt c)
      ++ optBlock adaptationsLabel (cleanOpt a), ?_⟩
  simp only [assemble_complete_guidelines_with_adaptations, cleanOpt, optBlock,
    List.append_assoc]

theorem title_no_h2 (m : Text) : occursIn h2ref (stripL (assembleTitle m)) = false := by
  apply occursIn_false_of_sub (stripL_sub _)
  unfold assembleTitle
  by_cases h : occursIn h2ref m = true
  · rw [if_pos h]
    exact pySplitHead_no_occurrence h2ref_ne_nil
  · rw [if_neg h]
    exact Bool.not_eq_true _ ▸ h

/-- C1: for every combination of the optional stages being present or absent,
the assembled document carries its labelled top-level segments in the fixed
order Comparison, [New Recommendations], [Conclusion], [Adaptations],
References, an optional segment appearing exactly when its cleaned body is
non-empty; and every non-final segment body (and the title part) contains no
embedded "## References" sub-heading — which also rules out "### References",
since the former is a substring of the latter — so the final References
segment is the only segment carrying a references block. -/
theorem C1_document_section_order (m s n c a : Text) :
    (∃ t r, assemble_complete_guidelines_with_adaptations m s n c a
      = t ++ comparisonLabel ++ stripL (remove_references_section s) ++ nl2T ++ sepT
          ++ optBlock newRecsLabel (cleanOpt n)
          ++ optBlock conclusionLabel (cleanOpt c)
          ++ optBlock adaptationsLabel (cleanOpt a)
          ++ referencesLabel ++ r)
    ∧ occursIn h2ref (stripL (remove_references_section s)) = false
    ∧ occursIn h2ref (cleanOpt n) = false
    ∧ occursIn h2ref (cleanOpt c) = false
    ∧ occursIn h2ref (cleanOpt a) = false
    ∧ occursIn h2ref (stripL (assembleTitle m)) = false :=
  ⟨assemble_decomp m s n c a, clean_no_h2 s, cleanOpt_no_h2 n, cleanOpt_no_h2 c,
    cleanOpt_no_h2 a, title_no_h2 m⟩

/-- C4: a cache write under key k followed by any number of reads of k
returns exactly the written text every time; and when a stage's key is
already cached, the stage returns the cached text with the whole state
unchanged — in particular the call log does not grow, so the read triggers
no external call. -/
theorem C4_cache_read_through (c : Cache) (k t : Text) (nReads : Nat)
    (topic today : Text) (fast : Bool) (o : Oracle) (st : PState) (v : Text)
    (hhit : cacheGet st.cache (metadataKey topic today fast) = some v) :
    cacheGet (cachePut c k t) k = some t
    ∧ readN (cachePut c k t) k nReads = List.replicate nReads (some t)
    ∧ research_guideline_metadata topic today fast true o st = (v, st) := by
  refine ⟨cacheGet_put_self c k t, ?_, research_guideline_metadata_hit hhit⟩
  induction nReads with
  | zero => rfl
  | succ mm ih => simp [readN, ih, cacheGet_put_self, List.replicate_succ]

/-- C4 witness: a concrete write, three reads, and a concrete cache hit of
the metadata stage with an oracle that would fail if it were consulted. -/
theorem C4_cache_read_through_witness :
    cacheGet (cachePut [] w4k w4v) w4k = some w4v
    ∧ readN (cachePut [] w4k w4v) w4k 3 = List.replicate 3 (some w4v)
    ∧ research_guideline_metadata w4topic w4today false true w4oracle w4st = (w4mv, w4st) :=
  C4_cache_read_through [] w4k w4v 3 w4topic w4today false w4oracle w4st w4mv (by decide)

/-- C5: the gap-topic extractor keeps, of the bold spans, exactly those
longer than five characters that do not contain "Gap Area"; when fewer than
two remain it substitutes the fixed three-topic fallback list, and otherwise
it returns the first-appearance-ordered qualifying spans capped at five — so
with exactly four qualifying spans it returns exactly those four in order,
and with zero qualifying spans the three-item fallback list. -/
theorem C5_gap_topic_extractor (s : Text) :
    (2 ≤ ((findBold s).filter
        (fun mm => decide (5 < mm.length) && !occursIn gapAreaLit mm)).length →
      extract_gap_areas s = ((findBold s).filter
        (fun mm => decide (5 < mm.length) && !occursIn gapAreaLit mm)).take 5)
    ∧ (((findBold s).filter
        (fun mm => decide (5 < mm.length) && !occursIn gapAreaLit mm)).length < 2 →
      extract_gap_areas s = gapFallback)
    ∧ (((findBold s).filter
        (fun mm => decide (5 < mm.length) && !occursIn gapAreaLit mm)).length = 4 →
      extract_gap_areas s = (findBold s).filter
        (fun mm => decide (5 < mm.length) && !occursIn gapAreaLit mm)) := by
  set q := (findBold s).filter (fun mm => decide (5 < mm.length) && !occursIn gapAreaLit mm)
    with hq
  have hg1 : (if !(findBold s).isEmpty then
      (findBold s).filter (fun mm => decide (5 < mm.length) && !occursIn gapAreaLit mm)
      else []) = q := by
    by_cases hms : (findBold s).isEmpty
    · rw [if_neg (by simp [hms]), hq, List.isEmpty_iff.mp hms]
      rfl
    · rw [if_pos (by simp [hms])]
  have hunf : extract_gap_areas s = if q.length < 2 then gapFallback else q.take 5 := by
    simp only [extract_gap_areas]
    rw [hg1]
    by_cases hl : q.length < 2
    · rw [if_pos hl, if_pos hl]
      rfl
    · rw [if_neg hl, if_neg hl]
  refine ⟨?_, ?_, ?_⟩
  · intro hlen
    rw [hunf, if_neg (by omega)]
  · intro hlen
    rw [hunf, if_pos hlen]
  · intro hlen
    rw [hunf, if_neg (by omega), List.take_of_length_le (by omega)]

/-- C5 witness: a text with exactly four qualifying spans yields those four
in order, and a text with zero qualifying spans yields the fallback list. -/
theorem C5_gap_topic_extractor_witness :
    extract_gap_areas w5four = (findBold w5four).filter
        (fun mm => decide (5 < mm.length) && !occursIn gapAreaLit mm)
    ∧ extract_gap_areas w5none = gapFallback :=
  ⟨(C5_gap_topic_extractor w5four).2.2 (by decide),
   (C5_gap_topic_extractor w5none).2.1 (by decide)⟩

/-- C6 counterexample: on a text with two "## References" headings the code
returns only the segment between the first and the second heading, not
everything after the first heading to the end of the text as the claim
states. -/
theorem C6_counterexample :
    extract_references_from_content c6text = "\nb\n".data
    ∧ extract_references_from_content c6text ≠ c6afterFirst := by decide

/-- C6 amended: the extractor matches the literal substring "## References"
(which also fires inside a third-level "### References" heading; a top-level
"# References" is not matched), falling back to "### References"; the body is
everything before the first occurrence, and the reference block is the
segment strictly between the first occurrence and the next one — running to
the end of the text only when there is no further occurrence.  When no such
heading occurs, the block is empty and the body is the full text unchanged. -/
theorem C6_reference_block_extractor (s : Text) :
    (occursIn h2ref s = true →
      occursIn h2ref (remove_references_section s) = false
      ∧ occursIn h2ref (extract_references_from_content s) = false
      ∧ (s = remove_references_section s ++ h2ref ++ extract_references_from_content s
         ∨ ∃ tail, s = remove_references_section s ++ h2ref
              ++ extract_references_from_content s ++ h2ref ++ tail))
    ∧ (occursIn h2ref s = false →
        extract_references_from_content s = [] ∧ remove_references_section s = s) := by
  constructor
  · intro h
    have hne : s ≠ [] := by
      intro h0
      rw [h0, occursIn_nil h2ref_ne_nil] at h
      exact Bool.noConfusion h
    have hrm : remove_references_section s = pySplitHead h2ref s := by
      unfold remove_references_section
      rw [if_neg hne, if_pos h]
    have hex : extract_references_from_content s = pySplitIdx1 h2ref s := by
      unfold extract_references_from_content
      rw [if_neg hne, if_pos h]
    cases hsf : splitFirst h2ref s with
    | none =>
      rw [(splitFirst_none h2ref_ne_nil).mp hsf] at h
      exact Bool.noConfusion h
    | some p =>
      obtain ⟨b, a⟩ := p
      obtain ⟨hs, hb⟩ := splitFirst_some h2ref_ne_nil hsf
      have hhead : pySplitHead h2ref s = b := by unfold pySplitHead; rw [hsf]
      cases hsf2 : splitFirst h2ref a with
      | none =>
        have ha := (splitFirst_none h2ref_ne_nil).mp hsf2
        have hidx : pySplitIdx1 h2ref s = a := by simp [pySplitIdx1, hsf, hsf2]
        rw [hrm, hex, hhead, hidx]
        exact ⟨hb, ha, Or.inl hs⟩
      | some p2 =>
        obtain ⟨b2, a2⟩ := p2
        obtain ⟨ha2, hb2⟩ := splitFirst_some h2ref_ne_nil hsf2
        have hidx : pySplitIdx1 h2ref s = b2 := by simp [pySplitIdx1, hsf, hsf2]
        rw [hrm, hex, hhead, hidx]
        refine ⟨hb, hb2, Or.inr ⟨a2, ?_⟩⟩
        rw [hs, ha2]
        simp [List.append_assoc]
  · intro h
    have h3 : occursIn h3ref s = false := by
      rw [Bool.eq_false_iff]
      intro hx
      rw [occursIn_h2_of_h3 hx] at h
      exact Bool.noConfusion h
    by_cases hne : s = []
    · subst hne
      exact ⟨rfl, rfl⟩
    · constructor
      · unfold extract_references_from_content
        rw [if_neg hne, if_neg (by simp [h]), if_neg (by simp [h3])]
      · unfold remove_references_section
        rw [if_neg hne, if_neg (by simp [h]), if_neg (by simp [h3])]

/-- C6 witness: the amended split on a text with one heading, and the
unchanged-body case on a text with none. -/
theorem C6_reference_block_extractor_witness :
    (c6w1 = remove_references_section c6w1 ++ h2ref ++ extract_references_from_content c6w1
      ∨ ∃ tail, c6w1 = remove_references_section c6w1 ++ h2ref
          ++ extract_references_from_content c6w1 ++ h2ref ++ tail)
    ∧ (extract_references_from_content c6w2 = [] ∧ remove_references_section c6w2 = c6w2) :=
  ⟨((C6_reference_block_extractor c6w1).1 (by decide)).2.2,
   (C6_reference_block_extractor c6w2).2 (by decide)⟩

/-- C10 counterexample: two structurally distinct tuples — the metadata stage
for a topic, and the direct-section stage for the same topic with the section
named "metadata" — encode to the identical cache-key string, so distinct
tuples can resolve to the same cache entry. -/
theorem C10_counterexample :
    encodeKey (CacheKeyTuple.metadataStage c10topic c10date false)
      = encodeKey (CacheKeyTuple.sectionStage c10topic c10sect c10date false)
    ∧ CacheKeyTuple.metadataStage c10topic c10date false
      ≠ CacheKeyTuple.sectionStage c10topic c10sect c10date false := by decide

/-- C10 amended: cache-key equality is structural in one direction only —
identical tuples always encode to the same key string, and two encodings can
only coincide when the (equal-length) generation dates and the quality modes
agree, so a new day or a switched mode always yields a fresh entry; but the
encoding is not injective in the topic / stage / sub-identifier fields, and
distinct tuples can collide (see the counterexample). -/
theorem C10_cache_key_encoding :
    (∀ k k' : CacheKeyTuple, k = k' → encodeKey k = encodeKey k')
    ∧ (∀ k k' : CacheKeyTuple, encodeKey k = encodeKey k' →
        (tupleDate k).length = (tupleDate k').length →
        tupleDate k = tupleDate k' ∧ tupleFast k = tupleFast k') :=
  ⟨fun _ _ h => h ▸ rfl, fun _ _ h hd => encodeKey_date_mode h hd⟩

/-- C10 witness: the date-and-mode agreement applied to the concrete
colliding pair. -/
theorem C10_cache_key_encoding_witness :
    tupleDate (CacheKeyTuple.metadataStage c10topic c10date false)
      = tupleDate (CacheKeyTuple.sectionStage c10topic c10sect c10date false)
    ∧ tupleFast (CacheKeyTuple.metadataStage c10topic c10date false)
      = tupleFast (CacheKeyTuple.sectionStage c10topic c10sect c10date false) :=
  C10_cache_key_encoding.2 _ _ (by decide) (by decide)

/-- C9 counterexample: with one section and only the new-recommendations
stage enabled, the emitted percent sequence is 10, 20, 20, 80, 80, 100, 98,
100 — the fixed "Assembling" update of 98 follows a 100, so the sequence is
not monotonically non-decreasing. -/
theorem C9_counterexample : ¬ List.Pairwise (· ≤ ·) (progressValues c9cfg) := by
  have h : progressValues c9cfg = [10, 20, 20, 80, 80, 100, 98, 100] := by
    norm_num [progressValues, c9cfg, secVals, progressComponentVals, sectionProgressTotal]
  rw [h]
  intro hp
  rcases hp with - | ⟨-, hp⟩
  rcases hp with - | ⟨-, hp⟩
  rcases hp with - | ⟨-, hp⟩
  rcases hp with - | ⟨-, hp⟩
  rcases hp with - | ⟨-, hp⟩
  rcases hp with - | ⟨hfwd, hp⟩
  have h1 : (100 : ℚ) ≤ 98 := hfwd 98 (by simp)
  norm_num at h1

/-- C9 amended: every percent value handed to the progress callback over a
successful run lies in the range 0 to 100; and when no optional stage is
enabled the sequence is monotonically non-decreasing.  With any optional
stage enabled, the optional-component updates reach 100 and the subsequent
fixed "Assembling" update of 98 breaks monotonicity (counterexample above);
a failed run additionally resets the bar to 0. -/
theorem C9_progress_values (cfg : Config) :
    (∀ x ∈ progressValues cfg, 0 ≤ x ∧ x ≤ 100)
    ∧ (cfg.includeNew = false → cfg.includeConclusion = false →
        cfg.includeContext = false → List.Pairwise (· ≤ ·) (progressValues cfg)) :=
  ⟨progressValues_in_range cfg, progressValues_pairwise_no_optional cfg⟩

/-- C9 witness: range and monotonicity at a concrete configuration with all
optional stages disabled. -/
theorem C9_progress_values_witness :
    (∀ x ∈ progressValues c9wcfg, 0 ≤ x ∧ x ≤ 100)
    ∧ List.Pairwise (· ≤ ·) (progressValues c9wcfg) :=
  ⟨(C9_progress_values c9wcfg).1, (C9_progress_values c9wcfg).2 rfl rfl rfl⟩

/-- C7: with empty metadata references and no reference blocks in the other
optional stages, when the Sections output embeds a reference block whose
line-deduplication is non-blank, the assembler's reference section is exactly
that combined block — whose lines are a duplicate-free, order-preserving
sublist of the embedded block's lines — and the document ends with the
References label followed by it, not the placeholder; when the Sections block
is empty too, the numbered-reference extraction over title plus sections text
is used if non-empty, and only then the literal placeholder. -/
theorem C7_reference_fallback (m s n c a : Text)
    (hm : stripL (if occursIn h2ref m then pySplitIdx1 h2ref m else []) = [])
    (hn : (if n ≠ [] then extract_references_from_content n else []) = [])
    (hc : (if c ≠ [] then extract_references_from_content c else []) = [])
    (ha : (if a ≠ [] then extract_references_from_content a else []) = []) :
    (stripL (combine_references [extract_references_from_content s, [], [], []]) ≠ [] →
      referencesSection m s n c a
        = combine_references [extract_references_from_content s, [], [], []]
      ∧ List.Sublist
          (dedupNonblankLines (pySplit nlT (extract_references_from_content s)) [])
          (pySplit nlT (extract_references_from_content s))
      ∧ (dedupNonblankLines (pySplit nlT (extract_references_from_content s)) []).Nodup
      ∧ ∃ pre, assemble_complete_guidelines_with_adaptations m s n c a
          = pre ++ referencesLabel
              ++ stripL (combine_references [extract_references_from_content s, [], [], []]))
    ∧ (extract_references_from_content s = [] →
        extract_numbered_references (assembleTitle m ++ nlT ++ s) = [] →
          referencesSection m s n c a = placeholderRefs)
    ∧ (extract_references_from_content s = [] →
        extract_numbered_references (assembleTitle m ++ nlT ++ s) ≠ [] →
          referencesSection m s n c a
            = extract_numbered_references (assembleTitle m ++ nlT ++ s)) := by
  set refs0 := (if occursIn h2ref m then pySplitIdx1 h2ref m else []) with hrf0
  set block := extract_references_from_content s with hbl
  set A := combine_references [block, [], [], []] with hAA
  set num := extract_numbered_references (assembleTitle m ++ nlT ++ s) with hnm
  have hsec : referencesSection m s n c a =
      if A = [] ∨ stripL A = [] then
        (if num ≠ [] then num else placeholderRefs)
      else A := by
    simp only [referencesSection]
    rw [hn, hc, ha, ← hbl, ← hAA, ← hrf0, ← hnm]
    have hc0 : refs0 = [] ∨ stripL refs0 = [] := Or.inr hm
    rw [if_pos hc0]
    by_cases hAe : A = []
    · have hX : (if A ≠ [] then A else refs0) = refs0 := if_neg (by simp [hAe])
      rw [hX, if_pos hc0]
      have hcd : A = [] ∨ stripL A = [] := Or.inl hAe
      rw [if_pos hcd]
    · have hX : (if A ≠ [] then A else refs0) = A := if_pos hAe
      rw [hX]
  refine ⟨?_, ?_, ?_⟩
  · intro hstrip
    have hAne : A ≠ [] := fun h0 => hstrip (by rw [h0]; rfl)
    have hcond : ¬ (A = [] ∨ stripL A = []) := by
      push_neg
      exact ⟨hAne, hstrip⟩
    have heq : referencesSection m s n c a = A := by rw [hsec, if_neg hcond]
    refine ⟨heq, dedupNonblankLines_sublist _ _, dedupNonblankLines_nodup _ _, ?_⟩
    obtain ⟨pre, hpre⟩ := assemble_refs_suffix m s n c a
    exact ⟨pre, by rw [hpre, heq]⟩
  · intro hblockNil hnum
    have hAe : A = [] := by rw [hAA, hblockNil]; rfl
    have hcd : A = [] ∨ stripL A = [] := Or.inl hAe
    rw [hsec, if_pos hcd, if_neg (by simp [hnum])]
  · intro hblockNil hnum
    have hAe : A = [] := by rw [hAA, hblockNil]; rfl
    have hcd : A = [] ∨ stripL A = [] := Or.inl hAe
    rw [hsec, if_pos hcd, if_pos hnum]

/-- C7 witness: with an embedded Sections reference block the reference
section equals the combined, deduplicated block and closes the document; with
no block and no numbered lines it is the placeholder. -/
theorem C7_reference_fallback_witness :
    (referencesSection c7m c7s [] [] []
        = combine_references [extract_references_from_content c7s, [], [], []]
      ∧ List.Sublist
          (dedupNonblankLines (pySplit nlT (extract_references_from_content c7s)) [])
          (pySplit nlT (extract_references_from_content c7s))
      ∧ (dedupNonblankLines (pySplit nlT (extract_references_from_content c7s)) []).Nodup
      ∧ ∃ pre, assemble_complete_guidelines_with_adaptations c7m c7s [] [] []
          = pre ++ referencesLabel
              ++ stripL (combine_references [extract_references_from_content c7s, [], [], []]))
    ∧ referencesSection c7m2 c7s2 [] [] [] = placeholderRefs :=
  ⟨(C7_reference_fallback c7m c7s [] [] [] (by decide) (by decide) (by decide) (by decide)).1
      (by decide),
   (C7_reference_fallback c7m2 c7s2 [] [] [] (by decide) (by decide) (by decide) (by decide)).2.1
      (by decide) (by decide)⟩

/-- On a cache miss, with the three chunked sub-calls answered by returned
content (possibly empty), the chain runs all three calls in order; each
downstream call's request embeds the previous step's output — the response
itself when non-empty, its stage-specific literal fallback when empty — and
the chain completes with the assembled section text. -/
theorem chunkedChain_spec (topic sect today : Text) (fast : Bool) (o : Oracle) (st : PState)
    (s1 s2 s3 : Text)
    (hmiss : cacheGet st.cache (chunkedSectionKey topic sect today fast) = none)
    (h1 : o st.log.length (.originalRecsPrompt topic sect) = .content s1)
    (h2 : o (st.log.length + 1) (Prompt.evidencePrompt topic sect
        (if s1 ≠ [] then s1 else origRecsFallback sect)) = .content s2)
    (h3 : o (st.log.length + 2) (Prompt.updatedRecsPrompt topic sect
        (if s1 ≠ [] then s1 else origRecsFallback sect)
        (if s2 ≠ [] then s2 else evidenceFallback)) = .content s3) :
    research_section_chunked topic sect today fast true o st
      = .ok (chunkHeadT ++ sect ++ nl2T
            ++ (if s3 ≠ [] then s3 else updatedFallback sect) ++ chunkTailT,
          ⟨cachePut st.cache (chunkedSectionKey topic sect today fast)
              (chunkHeadT ++ sect ++ nl2T
                ++ (if s3 ≠ [] then s3 else updatedFallback sect) ++ chunkTailT),
            st.log ++ [Prompt.originalRecsPrompt topic sect,
              Prompt.evidencePrompt topic sect (if s1 ≠ [] then s1 else origRecsFallback sect),
              Prompt.updatedRecsPrompt topic sect
                (if s1 ≠ [] then s1 else origRecsFallback sect)
                (if s2 ≠ [] then s2 else evidenceFallback)]⟩) := by
  have h3' : o (st.log.length + 1 + 1) (Prompt.updatedRecsPrompt topic sect
      (if s1 ≠ [] then s1 else origRecsFallback sect)
      (if s2 ≠ [] then s2 else evidenceFallback)) = .content s3 := by
    rw [Nat.add_assoc]
    exact h3
  simp only [research_section_chunked, hmiss, research_original_recommendations,
    research_section_evidence, generate_updated_recommendations, callAgent,
    List.length_append, List.length_cons, List.length_nil, h1, h2, h3',
    List.append_assoc, List.cons_append, List.nil_append, if_true, ite_true]

/-- C8 amended: an empty-content failure of any of the three chunked
sub-calls is recovered locally — the downstream sub-calls still run,
receiving the failed step's stage-specific literal fallback in their
requests, and the chain completes.  However, a raised error in a sub-call is
not caught by the chain and aborts the whole run (only the top-level handler
catches it), as the counterexample shows. -/
theorem C8_chunked_chain (topic sect today : Text) (fast : Bool) (o : Oracle) (st : PState)
    (s1 s2 s3 : Text)
    (hmiss : cacheGet st.cache (chunkedSectionKey topic sect today fast) = none)
    (h1 : o st.log.length (.originalRecsPrompt topic sect) = .content s1)
    (h2 : o (st.log.length + 1) (Prompt.evidencePrompt topic sect
        (if s1 ≠ [] then s1 else origRecsFallback sect)) = .content s2)
    (h3 : o (st.log.length + 2) (Prompt.updatedRecsPrompt topic sect
        (if s1 ≠ [] then s1 else origRecsFallback sect)
        (if s2 ≠ [] then s2 else evidenceFallback)) = .content s3) :
    research_section_chunked topic sect today fast true o st
      = .ok (chunkHeadT ++ sect ++ nl2T
            ++ (if s3 ≠ [] then s3 else updatedFallback sect) ++ chunkTailT,
          ⟨cachePut st.cache (chunkedSectionKey topic sect today fast)
              (chunkHeadT ++ sect ++ nl2T
                ++ (if s3 ≠ [] then s3 else updatedFallback sect) ++ chunkTailT),
            st.log ++ [Prompt.originalRecsPrompt topic sect,
              Prompt.evidencePrompt topic sect (if s1 ≠ [] then s1 else origRecsFallback sect),
              Prompt.updatedRecsPrompt topic sect
                (if s1 ≠ [] then s1 else origRecsFallback sect)
                (if s2 ≠ [] then s2 else evidenceFallback)]⟩) :=
  chunkedChain_spec topic sect today fast o st s1 s2 s3 hmiss h1 h2 h3

/-- C8 witness: the first sub-call returns empty content; the chain still
runs the remaining two calls, embedding the literal fallback for the failed
step, and completes. -/
theorem C8_chunked_chain_witness :
    research_section_chunked c8wtopic c8wsect c8wdate false true c8wOracle c8wst
      = .ok (chunkHeadT ++ c8wsect ++ nl2T
            ++ (if c8wtext ≠ [] then c8wtext else updatedFallback c8wsect) ++ chunkTailT,
          ⟨cachePut c8wst.cache (chunkedSectionKey c8wtopic c8wsect c8wdate false)
              (chunkHeadT ++ c8wsect ++ nl2T
                ++ (if c8wtext ≠ [] then c8wtext else updatedFallback c8wsect) ++ chunkTailT),
            c8wst.log ++ [Prompt.originalRecsPrompt c8wtopic c8wsect,
              Prompt.evidencePrompt c8wtopic c8wsect
                (if ([] : Text) ≠ [] then [] else origRecsFallback c8wsect),
              Prompt.updatedRecsPrompt c8wtopic c8wsect
                (if ([] : Text) ≠ [] then [] else origRecsFallback c8wsect)
                (if c8wtext ≠ [] then c8wtext else evidenceFallback)]⟩) :=
  C8_chunked_chain c8wtopic c8wsect c8wdate false c8wOracle c8wst [] c8wtext c8wtext
    (by decide) (by decide) (by decide) (by decide)

/-- C8 counterexample: a raised error in the first chunked sub-call is not
recovered locally — the run aborts with the error after only two external
calls, the downstream sub-calls never run, and no document is produced. -/
theorem C8_counterexample :
    runPipeline c8ecfg c8eOracle []
      = .error (c8eboom, ⟨cachePut [] (metadataKey c8etopic c8edate false) c8emeta,
          [Prompt.metadataPrompt c8etopic, Prompt.originalRecsPrompt c8etopic c8esect]⟩) := by
  decide

/-- C2 amended: when every external call of the first run returns non-empty
content and caching is enabled, a second run with the same configuration
(same topic, quality mode and calendar day), started from the first run's
final cache, is served entirely from the cache: it makes zero external calls
(its call log is empty), leaves the cache unchanged, and returns the
byte-identical document.  Unconditionally the claim fails: a failed call is
not cached and is repeated on the second run (see the counterexample). -/
theorem C2_second_run_idempotent (cfg : Config) (o o₂ : Oracle) (c0 : Cache)
    (hok : OracleOk o) (hc : cfg.useCache = true) :
    SecondRunClean cfg o₂ (runPipeline cfg o c0) :=
  runPipeline_replay hok hc

/-- C2 witness: a concrete configuration with all stages enabled and an
always-successful oracle. -/
theorem C2_second_run_idempotent_witness :
    SecondRunClean c2wcfg c2wOracle (runPipeline c2wcfg c2wOracle []) :=
  C2_second_run_idempotent c2wcfg c2wOracle c2wOracle []
    (fun _ _ => ⟨c2wtext, rfl, by decide⟩) rfl

/-- C2 counterexample: the metadata call of the first run fails (empty
content), so nothing is cached, and the second run — same day, topic, mode,
caching enabled — issues one external call instead of zero. -/
theorem C2_counterexample :
    (runPipeline c2ecfg c2eOracle []).map (fun r =>
        (runPipeline c2ecfg c2eOracle r.2.cache).map (fun r2 => r2.2.log.length))
      = .ok (.ok 1) := by decide

theorem intercalate_singleton (sep x : Text) : List.intercalate sep [x] = x := by
  simp [List.intercalate, List.intersperse]

/-- C3: scenario topic "sepsis management", single section "Diagnostic
Approach", chunked strategy, all optional stages disabled, empty cache, and
an oracle that never raises an error: the pipeline makes exactly four
external calls — metadata plus the three dependent chunked calls for the one
section — and the document decomposes with exactly the two labelled body
segments, Comparison followed by References, with only the fixed separator
between the comparison body and the references label. -/
theorem C3_end_to_end (o : Oracle) (hno : OracleNoErr o) :
    ∃ d st, runPipeline c3cfg o [] = .ok (d, st)
      ∧ st.log.length = 4
      ∧ (∃ r1 r2, st.log = [Prompt.metadataPrompt c3topic,
          Prompt.originalRecsPrompt c3topic c3sect,
          Prompt.evidencePrompt c3topic c3sect r1,
          Prompt.updatedRecsPrompt c3topic c3sect r1 r2])
      ∧ ∃ t x r, d = t ++ comparisonLabel ++ x ++ nl2T ++ sepT ++ referencesLabel ++ r := by
  obtain ⟨s0, h0⟩ := hno 0 (.metadataPrompt c3topic)
  have hm : research_guideline_metadata c3topic c3date false true o ⟨[], []⟩
      = ((if s0 ≠ [] then s0 else metadataFail),
         ⟨(if s0 ≠ [] then cachePut [] (metadataKey c3topic c3date false) s0 else []),
          [Prompt.metadataPrompt c3topic]⟩) := by
    by_cases hs : s0 = []
    · subst hs
      simp [research_guideline_metadata, cacheGet, callAgent, h0]
    · simp [research_guideline_metadata, cacheGet, callAgent, h0, hs]
  have hmiss : cacheGet (if s0 ≠ [] then cachePut [] (metadataKey c3topic c3date false) s0 else [])
      (chunkedSectionKey c3topic c3sect c3date false) = none := by
    have hkeys : chunkedSectionKey c3topic c3sect c3date false
        ≠ metadataKey c3topic c3date false := by decide
    by_cases hs : s0 = []
    · simp [hs, cacheGet]
    · rw [if_pos hs, cacheGet_put_other hkeys]
      rfl
  obtain ⟨s1, h1⟩ := hno 1 (.originalRecsPrompt c3topic c3sect)
  obtain ⟨s2, h2⟩ := hno 2 (.evidencePrompt c3topic c3sect
    (if s1 ≠ [] then s1 else origRecsFallback c3sect))
  obtain ⟨s3, h3⟩ := hno 3 (.updatedRecsPrompt c3topic c3sect
    (if s1 ≠ [] then s1 else origRecsFallback c3sect)
    (if s2 ≠ [] then s2 else evidenceFallback))
  have hchain := chunkedChain_spec c3topic c3sect c3date false o
    ⟨(if s0 ≠ [] then cachePut [] (metadataKey c3topic c3date false) s0 else []),
      [Prompt.metadataPrompt c3topic]⟩ s1 s2 s3 hmiss h1 h2 h3
  have hrun : runPipeline c3cfg o [] = .ok
      (assemble_complete_guidelines_with_adaptations (if s0 ≠ [] then s0 else metadataFail)
        (chunkHeadT ++ c3sect ++ nl2T ++ (if s3 ≠ [] then s3 else updatedFallback c3sect)
          ++ chunkTailT) [] [] [],
       ⟨cachePut (if s0 ≠ [] then cachePut [] (metadataKey c3topic c3date false) s0 else [])
          (chunkedSectionKey c3topic c3sect c3date false)
          (chunkHeadT ++ c3sect ++ nl2T ++ (if s3 ≠ [] then s3 else updatedFallback c3sect)
            ++ chunkTailT),
        [Prompt.metadataPrompt c3topic, Prompt.originalRecsPrompt c3topic c3sect,
          Prompt.evidencePrompt c3topic c3sect (if s1 ≠ [] then s1 else origRecsFallback c3sect),
          Prompt.updatedRecsPrompt c3topic c3sect
            (if s1 ≠ [] then s1 else origRecsFallback c3sect)
            (if s2 ≠ [] then s2 else evidenceFallback)]⟩) := by
    simp only [runPipeline, runSections, sectionStep, newRecsStep, conclusionStep, contextStep,
      c3cfg, hm, hchain, intercalate_singleton, List.cons_append, List.nil_append,
      Bool.false_eq_true, if_false, ite_false, if_true, ite_true]
  refine ⟨_, _, hrun, rfl, ⟨_, _, rfl⟩, ?_⟩
  obtain ⟨t, r, hd⟩ := assemble_decomp (if s0 ≠ [] then s0 else metadataFail)
    (chunkHeadT ++ c3sect ++ nl2T ++ (if s3 ≠ [] then s3 else updatedFallback c3sect)
      ++ chunkTailT) [] [] []
  rw [show cleanOpt [] = [] from rfl] at hd
  rw [show optBlock newRecsLabel [] = [] from by simp [optBlock]] at hd
  rw [show optBlock conclusionLabel [] = [] from by simp [optBlock]] at hd
  rw [show optBlock adaptationsLabel [] = [] from by simp [optBlock]] at hd
  rw [List.append_nil, List.append_nil, List.append_nil] at hd
  exact ⟨t, _, r, hd⟩

theorem C3_end_to_end_witness :
    ∃ d st, runPipeline c3cfg c3wOracle [] = .ok (d, st)
      ∧ st.log.length = 4
      ∧ (∃ r1 r2, st.log = [Prompt.metadataPrompt c3topic,
          Prompt.originalRecsPrompt c3topic c3sect,
          Prompt.evidencePrompt c3topic c3sect r1,
          Prompt.updatedRecsPrompt c3topic c3sect r1 r2])
      ∧ ∃ t x r, d = t ++ comparisonLabel ++ x ++ nl2T ++ sepT ++ referencesLabel ++ r :=
  C3_end_to_end c3wOracle (fun _ _ => ⟨c3wtext, rfl⟩)

end Guidelines
